import Mathlib

/-!
Verification of the excel-to-qTest result uploader's extraction and
reconciliation engine against its natural-language specification.

The Python source is shallowly embedded: each DataFrame becomes a list of
structure rows, each remote endpoint becomes an oracle function passed in as
a parameter, and each retry loop becomes a recursion over the attempt
counter.  Python string primitives (`str.lower`, `str.strip`, `in`,
`str.endswith`) are modelled as executable functions over `List Char`.

The file is organised as definitions first (one block per embedded source
function, with the concrete inputs used by witnesses), then theorems.
-/

deriving instance DecidableEq for Except

namespace QTest

/-! # Definitions -/

/-! ## Models of the Python string primitives -/

/-- Model of Python's `in` on strings: `pat` occurs as a contiguous substring
of `text`. -/
def containsSub (text pat : List Char) : Bool :=
  match text with
  | [] => pat.isEmpty
  | _ :: t => pat.isPrefixOf text || containsSub t pat

/-- Model of Python's `str.lower` (ASCII case folding, as applied to the
ASCII keywords the code searches for). -/
def pyLower (s : List Char) : List Char :=
  s.map Char.toLower

/-- Model of Python's `str.strip`: drop leading and trailing whitespace. -/
def pyStrip (s : List Char) : List Char :=
  ((s.dropWhile Char.isWhitespace).reverse.dropWhile Char.isWhitespace).reverse

/-- Model of Python's `str.endswith`. -/
def pyEndsWith (s suffix : List Char) : Bool :=
  suffix.isSuffixOf s

/-! ## `_parse_test_result` (src/modules/load_excel.py lines 78-92, and the
identical logic in src/main_apitryout.py lines 88-106)

```python
raw = str(row.get("raw_test_result", "")).strip().lower()
has_passed = "passed" in raw
has_failed = "failed" in raw
if has_failed: result = "Failed"
elif has_passed: result = "Passed"
else:
    result = "N/A"
    _append_status(df, idx, "Result could not be determined from raw_test_result")
```

The returned pair is the derived result string together with whether the
diagnostic status message was appended to the row. -/

def parse_test_result (raw_test_result : List Char) : List Char × Bool :=
  let raw := pyLower (pyStrip raw_test_result)
  let has_passed := containsSub raw "passed".data
  let has_failed := containsSub raw "failed".data
  if has_failed then ("Failed".data, false)
  else if has_passed then ("Passed".data, false)
  else ("N/A".data, true)

/-- Claim-side predicate: the raw string contains `pat` case-insensitively
(stated on the raw string itself, with no reference to the code's
strip-then-lower pipeline). -/
def containsCI (s pat : List Char) : Bool :=
  containsSub (pyLower s) pat

/-! ## `fetch_with_retries` (src/modules/qtest_extract.py lines 46-73)

```python
for attempt in range(1, max_retries + 1):
    ... response = post(...)
    if response.status == 200:
        return await response.json()
    elif 500 <= response.status < 600:
        if attempt == max_retries:
            raise RequestFailureException(...)   # carries status & text
        await asyncio.sleep(2 ** attempt)
    else:
        raise RequestFailureException(...)       # no retry
```

The HTTP layer is an oracle `responses : Nat → HttpResponse` giving the
response observed on each attempt number.  The embedding returns the
function's outcome (`none` models Python's implicit `None` when the loop
body never runs, i.e. `max_retries = 0`) together with the list of backoff
delays slept, in order. -/

structure HttpResponse where
  status : Nat
  body : String
deriving Repr, DecidableEq

inductive FetchError where
  | exhausted (status : Nat) (body : String)
  | immediate (status : Nat) (body : String)
  | noData
deriving Repr, DecidableEq

def is5xx (r : HttpResponse) : Bool :=
  500 ≤ r.status && r.status < 600

def fetchGo (max_retries : Nat) (responses : Nat → HttpResponse) (attempt : Nat) :
    Option (Except FetchError String) × List Nat :=
  if h : max_retries < attempt then (none, [])
  else
    let resp := responses attempt
    if resp.status = 200 then (some (Except.ok resp.body), [])
    else if h5 : 500 ≤ resp.status ∧ resp.status < 600 then
      if heq : attempt = max_retries then
        (some (Except.error (FetchError.exhausted resp.status resp.body)), [])
      else
        let rest := fetchGo max_retries responses (attempt + 1)
        (rest.1, 2 ^ attempt :: rest.2)
    else (some (Except.error (FetchError.immediate resp.status resp.body)), [])
termination_by max_retries + 1 - attempt
decreasing_by omega

def fetch_with_retries (max_retries : Nat) (responses : Nat → HttpResponse) :
    Option (Except FetchError String) × List Nat :=
  fetchGo max_retries responses 1

/-- Concrete oracle for the spec's retry scenario: `503` on attempts 1 and 2,
`200` on attempt 3. -/
def resp503x2then200 : Nat → HttpResponse :=
  fun attempt => if attempt = 3 then ⟨200, "ok"⟩ else ⟨503, "server error"⟩

/-- Concrete oracle that always answers `503`. -/
def respAlways503 : Nat → HttpResponse :=
  fun _ => ⟨503, "boom"⟩

/-- Concrete oracle that always answers `404`. -/
def respAlways404 : Nat → HttpResponse :=
  fun _ => ⟨404, "not found"⟩

/-! ## `make_search_requests` pagination (src/modules/qtest_extract.py
lines 75-115)

```python
first_page_data = await fetch_with_retries(base_url, headers, request_body, params)
if not first_page_data:
    raise RequestFailureException(f"Failed to fetch initial page ... No data returned.")
total_records = first_page_data.get("total", 0)
page_size = params["pageSize"]
total_pages = (total_records + page_size - 1) // page_size
results = first_page_data.get("items", [])
if total_pages > 1:
    ... fetch pages 2..total_pages, gather with return_exceptions=True ...
    for page_data in additional_results:
        if isinstance(page_data, Exception): raise page_data
        results.extend(page_data)
return pd.DataFrame(results)
```

A parsed response body is `Option (SearchBody α)`: `none` models a falsy
body (`None` or an empty JSON object), `some b` a non-empty object whose
`total` field may still be absent (`b.total = none`, in which case
`dict.get("total", 0)` yields 0).  `fetchPage p` is the outcome of
`fetch_with_retries` for page `p` (value or raised error).  Pages 2..N are
gathered and the first exception in page order is re-raised, which the
sequential `collectPages` reproduces. -/

structure SearchBody (α : Type) where
  total : Option Nat
  items : List α
deriving Repr, DecidableEq

def collectPages {α : Type} (fetchPage : Nat → Except FetchError (Option (SearchBody α))) :
    List Nat → List α → Except FetchError (List α)
  | [], acc => Except.ok acc
  | p :: rest, acc =>
    match fetchPage p with
    | Except.error e => Except.error e
    | Except.ok none => collectPages fetchPage rest acc
    | Except.ok (some body) => collectPages fetchPage rest (acc ++ body.items)

def make_search_requests {α : Type} (pageSize : Nat)
    (fetchPage : Nat → Except FetchError (Option (SearchBody α))) :
    Except FetchError (List α) :=
  match fetchPage 1 with
  | Except.error e => Except.error e
  | Except.ok none => Except.error FetchError.noData
  | Except.ok (some first_page_data) =>
    let total_records := first_page_data.total.getD 0
    let total_pages := (total_records + pageSize - 1) / pageSize
    let results := first_page_data.items
    if 1 < total_pages then
      collectPages fetchPage (List.range' 2 (total_pages - 1)) results
    else Except.ok results

/-- Concrete page oracle for C4: page 1 returns a non-empty body with no
`total` field and one item; every other page would be a server error. -/
def c4FetchPage : Nat → Except FetchError (Option (SearchBody Nat)) :=
  fun p =>
    if p = 1 then Except.ok (some ⟨none, [7]⟩)
    else Except.error (FetchError.exhausted 503 "later page")

/-- Concrete page oracle whose first page is falsy (empty body). -/
def c4FetchPageEmpty : Nat → Except FetchError (Option (SearchBody Nat)) :=
  fun _ => Except.ok none

/-! ## The page-request concurrency limiter (src/modules/qtest_extract.py
lines 89-112, with `extract_test_cases` lines 118-159)

`make_search_requests` creates `semaphore = asyncio.Semaphore(max_concurrent_requests)`
locally, once per call, and `extract_test_cases` runs one
`make_search_requests` per chunk concurrently via `asyncio.gather`.  The
admission discipline is modelled as a labelled transition system over the
set of page-fetch tasks alive after each chunk has read its first page: a
task `(chunk, page)` may start only while fewer than `N` tasks of the SAME
chunk are in flight (each chunk has its own semaphore), and any in-flight
task may finish.  A request is "in flight" while its task holds a semaphore
slot and awaits the HTTP response. -/

abbrev PageTask := Nat × Nat

structure SemState where
  waiting : List PageTask
  inflight : List PageTask
  completed : List PageTask
deriving Repr, DecidableEq

/-- Number of in-flight page requests belonging to chunk `c`. -/
def chunkInflight (s : SemState) (c : Nat) : Nat :=
  (s.inflight.filter (fun t => t.1 == c)).length

inductive SemStep (N : Nat) : SemState → SemState → Prop
  | start (t : PageTask) (s : SemState) (hw : t ∈ s.waiting)
      (hcap : chunkInflight s t.1 < N) :
      SemStep N s ⟨s.waiting.erase t, t :: s.inflight, s.completed⟩
  | finish (t : PageTask) (s : SemState) (hf : t ∈ s.inflight) :
      SemStep N s ⟨s.waiting, s.inflight.erase t, t :: s.completed⟩

def SemReach (N : Nat) : SemState → SemState → Prop :=
  Relation.ReflTransGen (SemStep N)

/-- Initial task set for the C5 scenario: chunk 0 has pages 2-6 to fetch
(total_pages = 6) and chunk 1 has page 2 (total_pages = 2); nothing has
started. -/
def c5Init : SemState :=
  ⟨[(0, 2), (0, 3), (0, 4), (0, 5), (0, 6), (1, 2)], [], []⟩

/-- A reachable state with six page requests in flight at once under limit 5:
all five of chunk 0's tasks plus one of chunk 1's. -/
def c5Bad : SemState :=
  ⟨[], [(1, 2), (0, 6), (0, 5), (0, 4), (0, 3), (0, 2)], []⟩

def c5S1 : SemState := ⟨[(0, 3), (0, 4), (0, 5), (0, 6), (1, 2)], [(0, 2)], []⟩

def c5S2 : SemState := ⟨[(0, 4), (0, 5), (0, 6), (1, 2)], [(0, 3), (0, 2)], []⟩

def c5S3 : SemState := ⟨[(0, 5), (0, 6), (1, 2)], [(0, 4), (0, 3), (0, 2)], []⟩

def c5S4 : SemState := ⟨[(0, 6), (1, 2)], [(0, 5), (0, 4), (0, 3), (0, 2)], []⟩

def c5S5 : SemState := ⟨[(1, 2)], [(0, 6), (0, 5), (0, 4), (0, 3), (0, 2)], []⟩

/-! ## `create_test_suite` (src/modules/qtest_extract.py lines 171-217)

```python
max_retries = CONFIG.get("request_retries", 3)
delay_seconds = 1
for attempt in range(1, max_retries + 1):
    try:
        response = requests.post(url, ...)
        if response.status_code == 200:
            suite_id = response.json().get("id")
            if suite_id: return suite_id
            else: logger.warning("... did not contain suite ID ...")
        else: logger.warning(...)
    except requests.RequestException: logger.warning(...)
    if attempt < max_retries:
        time.sleep(delay_seconds)
        delay_seconds *= 2
    else: logger.error(...)
raise Exception(f"Failed to create suite ... after {max_retries} attempts.")
```

`attempts a` is the observed outcome of the POST on attempt `a` (an
exception, or a status code with the optional `id` field of the parsed
body).  The embedding returns the outcome together with the list of sleep
durations, in order. -/

inductive SuiteAttempt where
  | exn
  | resp (status : Nat) (suiteId : Option Int)
deriving Repr, DecidableEq

/-- An attempt yields a suite id only on status 200 with a truthy `id`
(Python's `if suite_id:` rejects a missing id and the integer 0 alike);
every other outcome, including an exception, falls through to the retry
logic. -/
def suiteSuccess (x : SuiteAttempt) : Option Int :=
  match x with
  | SuiteAttempt.exn => none
  | SuiteAttempt.resp status suiteId =>
    if status = 200 then
      match suiteId with
      | some i => if i ≠ 0 then some i else none
      | none => none
    else none

def suiteGo (max_retries : Nat) (attempts : Nat → SuiteAttempt)
    (attempt delay : Nat) : Except Unit Int × List Nat :=
  if _h : max_retries < attempt then (Except.error (), [])
  else
    match suiteSuccess (attempts attempt) with
    | some i => (Except.ok i, [])
    | none =>
      if hlt : attempt < max_retries then
        let rest := suiteGo max_retries attempts (attempt + 1) (delay * 2)
        (rest.1, delay :: rest.2)
      else (Except.error (), [])
termination_by max_retries + 1 - attempt
decreasing_by omega

def create_test_suite (max_retries : Nat) (attempts : Nat → SuiteAttempt) :
    Except Unit Int × List Nat :=
  suiteGo max_retries attempts 1 1

/-- Concrete attempt oracle that always fails with a 500. -/
def suiteAlways500 : Nat → SuiteAttempt :=
  fun _ => SuiteAttempt.resp 500 none

/-- Concrete attempt oracle: 200 with no `id` field on attempt 1, then 200
with id 42 on attempt 2. -/
def suite200NoIdThen42 : Nat → SuiteAttempt :=
  fun a => if a = 1 then SuiteAttempt.resp 200 none else SuiteAttempt.resp 200 (some 42)

/-! ## `create_test_runs` (src/modules/qtest_extract.py lines 220-273)

```python
created_runs = []
for _, record in valid_case_df.iterrows():
    test_run_name = record.get("test_run_name")
    test_case_id = record.get("test_case_id")
    if not test_run_name or pd.isna(test_case_id):
        logger.warning("Skipping record ..."); continue
    try:
        response = requests.post(url, ...)
        if response.status_code == 201:
            created_runs.append({... "test_run_id": run_data["id"]})
        else: logger.error(...)
    except Exception: logger.exception(...)
return pd.DataFrame(created_runs)
```

There is no retry loop here: each eligible target issues exactly one POST.
`responses row attempt` is the outcome the POST for DataFrame row `row`
would observe on its `attempt`-th try (the code only ever performs attempt
1; keeping the attempt index observable lets the absence of retries be
stated).  The embedding also returns the trace of `(row, attempt)` requests
actually issued. -/

structure RunTarget where
  test_run_name : Option String
  test_case_id : Option Int
  test_case_version_id : Int
  test_case_pid : String
deriving Repr, DecidableEq

inductive RunAttempt where
  | exn
  | resp (status : Nat) (runId : Int)
deriving Repr, DecidableEq

structure RunRecord where
  test_case_pid : String
  test_case_id : Int
  test_run_name : String
  test_run_id : Int
deriving Repr, DecidableEq

def runsLoop (responses : Nat → Nat → RunAttempt) :
    Nat → List RunTarget → List RunRecord → List (Nat × Nat) →
    List RunRecord × List (Nat × Nat)
  | _, [], created_runs, trace => (created_runs, trace)
  | i, record :: rest, created_runs, trace =>
    match record.test_run_name, record.test_case_id with
    | some name, some cid =>
      if name = "" then runsLoop responses (i + 1) rest created_runs trace
      else
        match responses i 1 with
        | RunAttempt.exn => runsLoop responses (i + 1) rest created_runs (trace ++ [(i, 1)])
        | RunAttempt.resp status runId =>
          if status = 201 then
            runsLoop responses (i + 1) rest
              (created_runs ++ [{ test_case_pid := record.test_case_pid,
                                  test_case_id := cid, test_run_name := name,
                                  test_run_id := runId }])
              (trace ++ [(i, 1)])
          else runsLoop responses (i + 1) rest created_runs (trace ++ [(i, 1)])
    | _, _ => runsLoop responses (i + 1) rest created_runs trace

def create_test_runs (responses : Nat → Nat → RunAttempt)
    (valid_case_df : List RunTarget) : List RunRecord × List (Nat × Nat) :=
  runsLoop responses 0 valid_case_df [] []

/-- Claim-side abstraction for C7: what a single target contributes to the
run table and to the request trace — nothing at all for an ineligible
target, one record and one request on a 201, one request and no record on
any failure. -/
def rowContrib (responses : Nat → Nat → RunAttempt) (i : Nat) (record : RunTarget) :
    List RunRecord × List (Nat × Nat) :=
  match record.test_run_name, record.test_case_id with
  | some name, some cid =>
    if name = "" then ([], [])
    else
      match responses i 1 with
      | RunAttempt.exn => ([], [(i, 1)])
      | RunAttempt.resp status runId =>
        if status = 201 then
          ([{ test_case_pid := record.test_case_pid, test_case_id := cid,
              test_run_name := name, test_run_id := runId }], [(i, 1)])
        else ([], [(i, 1)])
  | _, _ => ([], [])

/-- Concrete target for C7: eligible, with run name "Run1" and case id 7. -/
def c7Target : RunTarget := ⟨some "Run1", some 7, 3, "TC-1"⟩

/-- Concrete ineligible target for C7 (missing run name). -/
def c7Skip : RunTarget := ⟨none, some 7, 3, "TC-2"⟩

/-- Concrete responses for C7: the first attempt for any row fails with 500,
any further attempt would succeed with 201 (but is never issued). -/
def c7Responses : Nat → Nat → RunAttempt :=
  fun _ attempt => if attempt = 1 then RunAttempt.resp 500 0 else RunAttempt.resp 201 99

/-- Concrete responses for C7 where every request answers 201 with id 99. -/
def c7ResponsesOk : Nat → Nat → RunAttempt :=
  fun _ _ => RunAttempt.resp 201 99

/-! ## `update_case_steps` flattening rows (src/modules/utils.py lines
119-168) and `execute_test_runs` (src/modules/qtest_extract.py lines
352-432)

A flattened step table row as produced by `unpack_case_steps` /
`update_case_steps`; a remote steps-by-version payload item. -/

structure StepData where
  id : Int
  order : Int
  description : String
  expected : String
  plain_value_text : String
deriving Repr, DecidableEq

structure StepRow where
  pid : String
  test_case_id : Int
  test_case_version_id : Int
  project_id : Int
  step_id : Int
  step_order : Int
  description : String
  expected : String
  plain_value_text : String
deriving Repr, DecidableEq

structure CaseRow where
  pid : String
  id : Int
  version : String
  test_case_version_id : Int
deriving Repr, DecidableEq

/-! ## `update_case_steps` (src/modules/utils.py lines 119-168), in detail

```python
step_df_filtered = test_case_step_df[~test_case_step_df["pid"].isin(updated_cases_df["pid"])]
new_step_rows = []
for _, row in updated_cases_df.iterrows():
    steps = get_steps_by_case_version(CONFIG, row["id"], row["test_case_version_id"])
    for step in steps:
        new_step_rows.append({ "pid": row["pid"], ... "step_id": step.get("id"), ... })
combined_df = pd.concat([step_df_filtered, new_step_df], ignore_index=True)
```

The oracle `stepsFor case_id version_id` is the list returned by
`get_steps_by_case_version` (that function returns `[]` both for an empty
step list and after its retries are exhausted, so a failed fetch simply
contributes zero rows). -/

/-- The dict appended to `new_step_rows` for one fetched step of one
updated case (utils.py lines 145-157). -/
def freshStepRow (project_id : Int) (row : CaseRow) (step : StepData) : StepRow :=
  { pid := row.pid, test_case_id := row.id,
    test_case_version_id := row.test_case_version_id,
    project_id := project_id, step_id := step.id, step_order := step.order,
    description := step.description, expected := step.expected,
    plain_value_text := step.plain_value_text }

def update_case_steps (stepsFor : Int → Int → List StepData) (project_id : Int)
    (updated_cases_df : List CaseRow) (test_case_step_df : List StepRow) : List StepRow :=
  let step_df_filtered := test_case_step_df.filter
    (fun s => !(updated_cases_df.any (fun c => c.pid == s.pid)))
  let new_step_rows := updated_cases_df.flatMap (fun row =>
    (stepsFor row.id row.test_case_version_id).map (freshStepRow project_id row))
  step_df_filtered ++ new_step_rows

/-- C2 concrete inputs: case `TC-5` changed version; the old step table has
two TC-5 rows (under the old version) and one TC-4 row. -/
def c2Changed : List CaseRow := [⟨"TC-5", 10, "2.0", 20⟩]

def c2Old : List StepRow :=
  [⟨"TC-5", 9, 19, 1, 91, 1, "old step a", "old exp a", ""⟩,
   ⟨"TC-5", 9, 19, 1, 92, 2, "old step b", "old exp b", ""⟩,
   ⟨"TC-4", 4, 40, 1, 41, 1, "keep me", "keep exp", ""⟩]

/-- Steps-by-version oracle returning one fresh step for case id 10. -/
def c2StepsFor : Int → Int → List StepData :=
  fun cid _ => if cid = 10 then [⟨99, 1, "new step", "new exp", ""⟩] else []

/-- Steps-by-version oracle whose fetches all fail or come back empty
(`get_steps_by_case_version` returns `[]` in both situations). -/
def c2EmptyFetch : Int → Int → List StepData := fun _ _ => []

/-- A row of `valid_case_df` as consumed by `execute_test_runs` (the code
checks that the four columns `test_case_id`, `test_case_version_id`,
`test_case_pid`, `test_result` exist, then also reads `pdf_file_path`). -/
structure ExecRow where
  test_case_pid : String
  test_case_id : Int
  test_case_version_id : Int
  test_result : String
  pdf_file_path : String
deriving Repr, DecidableEq

/-- One execution-log POST body as built by `execute_test_runs` (the
`actual_result` field holds the PDF path interpolated into the fixed
message text). -/
structure PostedLog where
  test_case_pid : String
  test_run_id : Int
  result_code : Int
  result_name : String
  step_id : Int
  actual_result : String
deriving Repr, DecidableEq

/-- `execute_test_runs` body (per record):

```python
result_code = result_code_mapping.get(test_result)
if result_code is None: ...warning; continue
run_row = test_runs[test_runs["test_case_pid"] == pid]
if run_row.empty: ...warning; continue
test_run_id = run_row.iloc[0]["test_run_id"]
step_row = test_case_step_df[test_case_step_df["pid"] == pid]
if step_row.empty: ...warning; continue
step_id = int(step_row.iloc[0]["step_id"])
body = {..., "test_step_logs": [{"test_step_id": step_id, ...}]}
... POST with retries ...
```

The returned list is the sequence of log bodies the function posts (the
posting retry loop affects only logging, not which bodies are built). -/
def execute_test_runs (mapping : String → Option Int) (valid_case_df : List ExecRow)
    (test_runs : List RunRecord) (test_case_step_df : List StepRow) : List PostedLog :=
  valid_case_df.filterMap (fun record =>
    match mapping record.test_result with
    | none => none
    | some result_code =>
      match test_runs.filter (fun tr => tr.test_case_pid == record.test_case_pid) with
      | [] => none
      | run_row :: _ =>
        match test_case_step_df.filter (fun s => s.pid == record.test_case_pid) with
        | [] => none
        | step_row :: _ =>
          some { test_case_pid := record.test_case_pid,
                 test_run_id := run_row.test_run_id,
                 result_code := result_code,
                 result_name := record.test_result,
                 step_id := step_row.step_id,
                 actual_result := record.pdf_file_path })

/-- C10 concrete inputs: one target whose pid matches two run records and
two step records. -/
def c10Target : ExecRow := ⟨"TC-7", 7, 70, "Passed", "C:/results/tc7.pdf"⟩

def c10Mapping : String → Option Int :=
  fun r => if r = "Passed" then some 601 else if r = "Failed" then some 602 else none

def c10Runs : List RunRecord :=
  [⟨"TC-7", 7, "Run A", 100⟩, ⟨"TC-7", 7, "Run B", 101⟩]

def c10Steps : List StepRow :=
  [⟨"TC-7", 7, 70, 1, 11, 1, "step one", "expected one", ""⟩,
   ⟨"TC-7", 7, 70, 1, 12, 2, "step two", "expected two", ""⟩]

/-! ## `get_latest_approved_versions` (src/modules/qtest_extract.py lines
435-491)

```python
if test_case_df.empty:
    raise ValueError("The test_case_df is empty. Cannot proceed with updates.")
needs_update = test_case_df[~test_case_df["version"].astype(str).str.endswith(".0")]
for _, row in needs_update.iterrows():
    versions = get_case_versions(CONFIG, row["id"])
    approved_versions = [v for v in versions if str(v.get("version", "")).endswith(".0")]
    if not approved_versions:
        logger.warning(f"No approved (.0) versions found for test case ID {case_id} (PID: {pid})")
        continue
    def parse_version(vstr):
        match = re.match(r"(\d+)\.0", str(vstr))
        return int(match.group(1)) if match else -1
    approved_versions.sort(key=lambda v: parse_version(v["version"]), reverse=True)
    latest = approved_versions[0]
    new_row = row.copy()
    new_row["id"] = latest["id"]; new_row["version"] = latest["version"]
    new_row["test_case_version_id"] = latest["test_case_version_id"]
    updated_rows.append(new_row)
if updated_rows:
    updated_df = test_case_df.copy(); updated_pids = []
    for row in updated_rows:
        match = updated_df[updated_df["pid"] == row["pid"]]
        if not match.empty:
            idx = match.index[0]
            updated_df.loc[idx, ["id", "version", "test_case_version_id"]] = ...
            updated_pids.append(row["pid"])
    updated_cases_df = updated_df[updated_df["pid"].isin(updated_pids)].copy()
    return updated_df, updated_cases_df
else:
    return test_case_df, pd.DataFrame(columns=test_case_df.columns)
```

The remote version-history endpoint is the oracle
`versions : Int → List VersionDescriptor`, keyed by the case's internal id.
Warnings are modelled as the list of `(case_id, pid)` pairs that were logged
with "No approved (.0) versions found". -/

structure VersionDescriptor where
  id : Int
  version : String
  test_case_version_id : Int
deriving Repr, DecidableEq

/-- Leading decimal digits of a character list, with the rest (the `\d+` of
the regex, ASCII digits as matched on these version strings). -/
def takeDigits : List Char → List Char × List Char
  | [] => ([], [])
  | c :: cs =>
    if c.isDigit then
      let r := takeDigits cs
      (c :: r.1, r.2)
    else ([], c :: cs)

def digitsToNat (ds : List Char) : Nat :=
  ds.foldl (fun acc c => 10 * acc + (c.toNat - 48)) 0

/-- `re.match(r"(\d+)\.0", str(vstr))`: one or more leading digits followed
immediately by ".0" (anything may follow); on a match the leading integer,
otherwise -1. -/
def parse_version (vstr : String) : Int :=
  match takeDigits vstr.data with
  | ([], _) => -1
  | (ds, rest) =>
    match rest with
    | '.' :: '0' :: _ => Int.ofNat (digitsToNat ds)
    | _ => -1

/-- `str(...).endswith(".0")`. -/
def endsWith0 (v : String) : Bool :=
  pyEndsWith v.data ".0".data

/-- Insert into a list already sorted by `key` descending, after all
elements with a key ≥ the new key: this models one step of Python's stable
`list.sort(key=..., reverse=True)`. -/
def insertDescBy (key : VersionDescriptor → Int) (x : VersionDescriptor) :
    List VersionDescriptor → List VersionDescriptor
  | [] => [x]
  | y :: ys => if key y < key x then x :: y :: ys else y :: insertDescBy key x ys

/-- Stable descending sort by `key` (processes the list left to right, so
elements with equal keys keep their original relative order, as Python's
stable sort with `reverse=True` does). -/
def sortDescBy (key : VersionDescriptor → Int) (l : List VersionDescriptor) :
    List VersionDescriptor :=
  l.foldl (fun acc x => insertDescBy key x acc) []

/-- The sort key: `parse_version(v["version"])`. -/
def versionKey (v : VersionDescriptor) : Int :=
  parse_version v.version

/-- `new_row = row.copy(); new_row["id"] = latest["id"]; ...`. -/
def overwriteRow (r : CaseRow) (v : VersionDescriptor) : CaseRow :=
  { r with id := v.id, version := v.version, test_case_version_id := v.test_case_version_id }

/-- The write-back `updated_df.loc[idx, ["id", "version",
"test_case_version_id"]] = row[[...]]` copies those three fields of the
updated row `u` onto the matched row. -/
def applyFields (r u : CaseRow) : CaseRow :=
  { r with id := u.id, version := u.version, test_case_version_id := u.test_case_version_id }

def approvedOf (versions : Int → List VersionDescriptor) (row : CaseRow) :
    List VersionDescriptor :=
  (versions row.id).filter (fun v => endsWith0 v.version)

/-- The `for _, row in needs_update.iterrows()` loop: returns the
`updated_rows` list and the `(case_id, pid)` warnings, in loop order. -/
def processNeedsUpdate (versions : Int → List VersionDescriptor) :
    List CaseRow → List CaseRow × List (Int × String)
  | [] => ([], [])
  | row :: rest =>
    let r := processNeedsUpdate versions rest
    match sortDescBy versionKey (approvedOf versions row) with
    | [] => (r.1, (row.id, row.pid) :: r.2)
    | latest :: _ => (overwriteRow row latest :: r.1, r.2)

/-- One write-back step: `match = updated_df[updated_df["pid"] == row["pid"]];
idx = match.index[0]` — the FIRST row with a matching pid gets the three
fields overwritten; the Bool reports whether a match existed. -/
def applyUpdateFirst : List CaseRow → CaseRow → List CaseRow × Bool
  | [], _ => ([], false)
  | r :: rs, u =>
    if r.pid == u.pid then (applyFields r u :: rs, true)
    else
      let rec2 := applyUpdateFirst rs u
      (r :: rec2.1, rec2.2)

/-- The `for row in updated_rows:` write-back loop, accumulating
`updated_pids` for rows whose pid matched. -/
def applyUpdates (df : List CaseRow) : List CaseRow → List CaseRow × List String
  | [] => (df, [])
  | u :: us =>
    let step := applyUpdateFirst df u
    let rest := applyUpdates step.1 us
    (rest.1, (if step.2 then [u.pid] else []) ++ rest.2)

def get_latest_approved_versions (versions : Int → List VersionDescriptor)
    (test_case_df : List CaseRow) :
    Except String (List CaseRow × List CaseRow × List (Int × String)) :=
  if test_case_df.isEmpty then
    Except.error "The test_case_df is empty. Cannot proceed with updates."
  else
    let needs_update := test_case_df.filter (fun r => !(endsWith0 r.version))
    let pw := processNeedsUpdate versions needs_update
    if pw.1.isEmpty then
      Except.ok (test_case_df, [], pw.2)
    else
      let au := applyUpdates test_case_df pw.1
      let updated_cases_df := au.1.filter (fun r => au.2.contains r.pid)
      Except.ok (au.1, updated_cases_df, pw.2)

/-- C1 counterexample input: two rows share pid "TC-1" — the first already
approved at "2.0", the second stale at "1.3". -/
def c1DupTable : List CaseRow :=
  [⟨"TC-1", 1, "2.0", 10⟩, ⟨"TC-1", 1, "1.3", 11⟩]

/-- History oracle for the counterexample: every case has one approved
version "3.0". -/
def c1Versions : Int → List VersionDescriptor :=
  fun _ => [⟨5, "3.0", 50⟩]

/-- C1 witness input: distinct pids — an approved row, the spec's
`1.3`-with-history-`["2.0", "1.0"]` row, and a row with no approved
version. -/
def c1Table : List CaseRow :=
  [⟨"TC-1", 1, "2.0", 10⟩, ⟨"TC-2", 2, "1.3", 21⟩, ⟨"TC-3", 3, "0.5", 31⟩]

/-- History oracle for the witness: case 2's history is `["2.0", "1.0"]`
(arbitrary remote order), case 3's history has no ".0" entry. -/
def c1WitnessVersions : Int → List VersionDescriptor :=
  fun cid =>
    if cid = 2 then [⟨22, "2.0", 220⟩, ⟨20, "1.0", 200⟩]
    else if cid = 3 then [⟨32, "0.6", 320⟩]
    else []

/-- The resolver's expected output table for the witness input. -/
def c1Out : List CaseRow :=
  [⟨"TC-1", 1, "2.0", 10⟩, ⟨"TC-2", 22, "2.0", 220⟩, ⟨"TC-3", 3, "0.5", 31⟩]

def c1Changed : List CaseRow := [⟨"TC-2", 22, "2.0", 220⟩]

def c1Warnings : List (Int × String) := [(3, "TC-3")]

/-! # Theorems -/

/-- One-step unfolding of `fetchGo`: a `200` response returns the parsed body. -/
theorem fetchGo_eq_200 {max_retries a : Nat} {responses : Nat → HttpResponse}
    (hle : a ≤ max_retries) (h200 : (responses a).status = 200) :
    fetchGo max_retries responses a = (some (Except.ok (responses a).body), []) := by
  have h1 : ¬ (max_retries < a) := by omega
  rw [fetchGo]
  simp [h1, h200]

/-- One-step unfolding of `fetchGo`: a 5xx response before the last attempt
sleeps `2 ^ attempt` and retries. -/
theorem fetchGo_eq_5xx_mid {max_retries a : Nat} {responses : Nat → HttpResponse}
    (hlt : a < max_retries) (h5 : 500 ≤ (responses a).status)
    (h6 : (responses a).status < 600) :
    fetchGo max_retries responses a =
      ((fetchGo max_retries responses (a + 1)).1,
        2 ^ a :: (fetchGo max_retries responses (a + 1)).2) := by
  have h1 : ¬ (max_retries < a) := by omega
  have hne200 : ¬ ((responses a).status = 200) := by omega
  have hnea : ¬ (a = max_retries) := by omega
  rw [fetchGo]
  simp [h1, hne200, h5, h6, hnea]

/-- One-step unfolding of `fetchGo`: a 5xx response on the last attempt raises
the exhaustion error carrying that attempt's status and body. -/
theorem fetchGo_eq_5xx_last {max_retries a : Nat} {responses : Nat → HttpResponse}
    (heq : a = max_retries) (h5 : 500 ≤ (responses a).status)
    (h6 : (responses a).status < 600) :
    fetchGo max_retries responses a =
      (some (Except.error (FetchError.exhausted (responses a).status (responses a).body)),
        []) := by
  subst heq
  have h1 : ¬ (a < a) := by omega
  have hne200 : ¬ ((responses a).status = 200) := by omega
  rw [fetchGo]
  simp [h1, hne200, h5, h6]

/-- One-step unfolding of `fetchGo`: any other non-200 status raises
immediately. -/
theorem fetchGo_eq_immediate {max_retries a : Nat} {responses : Nat → HttpResponse}
    (hle : a ≤ max_retries) (hne200 : (responses a).status ≠ 200)
    (hn5 : ¬ (500 ≤ (responses a).status ∧ (responses a).status < 600)) :
    fetchGo max_retries responses a =
      (some (Except.error (FetchError.immediate (responses a).status (responses a).body)),
        []) := by
  have h1 : ¬ (max_retries < a) := by omega
  rw [fetchGo]
  simp [h1, hne200, hn5]

theorem fetchGo_ok (max_retries : Nat) (responses : Nat → HttpResponse) :
    ∀ n k a, k - a = n → a ≤ k → k ≤ max_retries →
      (∀ j, j < k → a ≤ j → is5xx (responses j) = true) →
      (responses k).status = 200 →
      fetchGo max_retries responses a =
        (some (Except.ok (responses k).body), (List.range' a (k - a)).map (fun j => 2 ^ j)) := by
  intro n
  induction n with
  | zero =>
    intro k a hka hak hkm _ h200
    have hak' : a = k := by omega
    subst hak'
    rw [fetchGo_eq_200 (by omega) h200]
    simp [List.range', Nat.sub_self]
  | succ n ih =>
    intro k a hka hak hkm h5 h200
    have halt : a < k := by omega
    have h5a := h5 a halt (Nat.le_refl a)
    simp only [is5xx, Bool.and_eq_true, decide_eq_true_eq] at h5a
    rw [fetchGo_eq_5xx_mid (by omega) h5a.1 h5a.2,
      ih k (a + 1) (by omega) (by omega) hkm (fun j hj haj => h5 j hj (by omega)) h200]
    have hk : k - a = (k - (a + 1)) + 1 := by omega
    rw [hk]
    simp [List.range']

theorem fetchGo_exhausted (max_retries : Nat) (responses : Nat → HttpResponse) :
    ∀ n a, max_retries - a = n → a ≤ max_retries →
      (∀ j, j ≤ max_retries → a ≤ j → is5xx (responses j) = true) →
      fetchGo max_retries responses a =
        (some (Except.error (FetchError.exhausted (responses max_retries).status
            (responses max_retries).body)),
         (List.range' a (max_retries - a)).map (fun j => 2 ^ j)) := by
  intro n
  induction n with
  | zero =>
    intro a hma ham h5
    have ham' : a = max_retries := by omega
    subst ham'
    have h5a := h5 a (Nat.le_refl a) (Nat.le_refl a)
    simp only [is5xx, Bool.and_eq_true, decide_eq_true_eq] at h5a
    rw [fetchGo_eq_5xx_last rfl h5a.1 h5a.2]
    simp [List.range', show a - a = 0 from by omega]
  | succ n ih =>
    intro a hma ham h5
    have halt : a < max_retries := by omega
    have h5a := h5 a (by omega) (Nat.le_refl a)
    simp only [is5xx, Bool.and_eq_true, decide_eq_true_eq] at h5a
    rw [fetchGo_eq_5xx_mid halt h5a.1 h5a.2,
      ih (a + 1) (by omega) (by omega) (fun j hjm haj => h5 j hjm (by omega))]
    have hk : max_retries - a = (max_retries - (a + 1)) + 1 := by omega
    rw [hk]
    simp [List.range']

theorem fetchGo_immediate (max_retries : Nat) (responses : Nat → HttpResponse) :
    ∀ n k a, k - a = n → a ≤ k → k ≤ max_retries →
      (∀ j, j < k → a ≤ j → is5xx (responses j) = true) →
      (responses k).status ≠ 200 → is5xx (responses k) = false →
      fetchGo max_retries responses a =
        (some (Except.error (FetchError.immediate (responses k).status (responses k).body)),
         (List.range' a (k - a)).map (fun j => 2 ^ j)) := by
  intro n
  induction n with
  | zero =>
    intro k a hka hak hkm _ hne200 hn5
    have hak' : a = k := by omega
    subst hak'
    have hn5' : ¬ (500 ≤ (responses a).status ∧ (responses a).status < 600) := by
      intro hc
      simp [is5xx, hc.1, hc.2] at hn5
    rw [fetchGo_eq_immediate (by omega) hne200 hn5']
    simp [List.range', show a - a = 0 from by omega]
  | succ n ih =>
    intro k a hka hak hkm h5 hne200 hn5
    have halt : a < k := by omega
    have h5a := h5 a halt (Nat.le_refl a)
    simp only [is5xx, Bool.and_eq_true, decide_eq_true_eq] at h5a
    rw [fetchGo_eq_5xx_mid (by omega) h5a.1 h5a.2,
      ih k (a + 1) (by omega) (by omega) hkm (fun j hj haj => h5 j hj (by omega)) hne200 hn5]
    have hk : k - a = (k - (a + 1)) + 1 := by omega
    rw [hk]
    simp [List.range']

/-- C3: For every search request, a 200 response returns the parsed body; a
response with status in 500-599 is retried after a backoff delay of
`2 ^ attempt` time units (attempt starting at 1) up to the configured maximum
number of attempts; exhausting all attempts raises a request-exhausted error
carrying the last status and body; any other non-200 status raises
immediately without any retry. -/
theorem fetch_retry_behavior (max_retries : Nat) (responses : Nat → HttpResponse) :
    (∀ k, 1 ≤ k → k ≤ max_retries →
      (∀ j, j < k → 1 ≤ j → is5xx (responses j) = true) →
      (responses k).status = 200 →
      fetch_with_retries max_retries responses =
        (some (Except.ok (responses k).body),
         (List.range' 1 (k - 1)).map (fun j => 2 ^ j))) ∧
    (1 ≤ max_retries →
      (∀ j, j ≤ max_retries → 1 ≤ j → is5xx (responses j) = true) →
      fetch_with_retries max_retries responses =
        (some (Except.error (FetchError.exhausted (responses max_retries).status
            (responses max_retries).body)),
         (List.range' 1 (max_retries - 1)).map (fun j => 2 ^ j))) ∧
    (∀ k, 1 ≤ k → k ≤ max_retries →
      (∀ j, j < k → 1 ≤ j → is5xx (responses j) = true) →
      (responses k).status ≠ 200 → is5xx (responses k) = false →
      fetch_with_retries max_retries responses =
        (some (Except.error (FetchError.immediate (responses k).status (responses k).body)),
         (List.range' 1 (k - 1)).map (fun j => 2 ^ j))) := by
  refine ⟨?_, ?_, ?_⟩
  · intro k h1k hkm h5 h200
    exact fetchGo_ok max_retries responses (k - 1) k 1 (by omega) h1k hkm h5 h200
  · intro hm h5
    exact fetchGo_exhausted max_retries responses (max_retries - 1) 1 (by omega) hm h5
  · intro k h1k hkm h5 hne hn5
    exact fetchGo_immediate max_retries responses (k - 1) k 1 (by omega) h1k hkm h5 hne hn5

/-! Bridge lemmas for C8: the code computes `strip` before `lower`, while the
claim speaks about a case-insensitive substring of the raw string itself.
Stripping surrounding whitespace neither creates nor destroys an occurrence
of an all-non-whitespace pattern. -/

theorem toLower_of_whitespace (c : Char) (h : c.isWhitespace = true) :
    Char.toLower c = c := by
  simp only [Char.isWhitespace, Bool.or_eq_true, decide_eq_true_eq] at h
  rcases h with ((h | h) | h) | h <;> subst h <;> decide

theorem containsSub_nil (pat : List Char) : containsSub [] pat = pat.isEmpty := rfl

theorem containsSub_cons (a : Char) (t pat : List Char) :
    containsSub (a :: t) pat = (pat.isPrefixOf (a :: t) || containsSub t pat) := rfl

theorem isPrefixOf_nil_left (l : List Char) : List.isPrefixOf [] l = true := by
  cases l <;> rfl

theorem notPrefix_of_head_mismatch (h c : Char) (p rest : List Char)
    (hh : h.isWhitespace = false) (hc : c.isWhitespace = true) :
    (h :: p).isPrefixOf (c :: rest) = false := by
  have hne : (h == c) = false := by
    refine beq_eq_false_iff_ne.mpr ?_
    intro he
    simp [he, hc] at hh
  simp [List.isPrefixOf, hne]

theorem containsSub_allWhitespace (h : Char) (p : List Char)
    (hh : h.isWhitespace = false) :
    ∀ q : List Char, (∀ c ∈ q, c.isWhitespace = true) →
      containsSub q (h :: p) = false := by
  intro q
  induction q with
  | nil => intro _; rfl
  | cons c q' ih =>
    intro hq
    rw [containsSub_cons,
      notPrefix_of_head_mismatch h c p q' hh (hq c (List.mem_cons_self c q')),
      Bool.false_or]
    exact ih (fun d hd => hq d (List.mem_cons_of_mem c hd))

theorem isPrefixOf_append_allWhitespace (q : List Char)
    (hq : ∀ c ∈ q, c.isWhitespace = true) :
    ∀ t pat : List Char, (∀ c ∈ pat, c.isWhitespace = false) →
      pat.isPrefixOf (t ++ q) = pat.isPrefixOf t := by
  intro t
  induction t with
  | nil =>
    intro pat hpat
    cases pat with
    | nil => rw [List.nil_append, isPrefixOf_nil_left, isPrefixOf_nil_left]
    | cons h p =>
      rw [List.nil_append]
      cases q with
      | nil => rfl
      | cons c q' =>
        rw [notPrefix_of_head_mismatch h c p q' (hpat h (List.mem_cons_self h p))
          (hq c (List.mem_cons_self c q'))]
        rfl
  | cons c t' ih =>
    intro pat hpat
    cases pat with
    | nil => rw [List.cons_append, isPrefixOf_nil_left, isPrefixOf_nil_left]
    | cons h p =>
      rw [List.cons_append]
      show (h == c && p.isPrefixOf (t' ++ q)) = (h == c && p.isPrefixOf t')
      rw [ih p (fun d hd => hpat d (List.mem_cons_of_mem h hd))]

theorem containsSub_append_ws_right (q : List Char)
    (hq : ∀ c ∈ q, c.isWhitespace = true) :
    ∀ t h p, (∀ c ∈ h :: p, c.isWhitespace = false) →
      containsSub (t ++ q) (h :: p) = containsSub t (h :: p) := by
  intro t
  induction t with
  | nil =>
    intro h p hpat
    rw [List.nil_append,
      containsSub_allWhitespace h p (hpat h (List.mem_cons_self h p)) q hq]
    rfl
  | cons c t' ih =>
    intro h p hpat
    rw [List.cons_append, containsSub_cons, containsSub_cons]
    rw [show c :: (t' ++ q) = (c :: t') ++ q from rfl,
      isPrefixOf_append_allWhitespace q hq (c :: t') (h :: p) hpat]
    rw [ih h p hpat]

theorem containsSub_append_ws_left (h : Char) (pat : List Char)
    (hh : h.isWhitespace = false) :
    ∀ p t : List Char, (∀ c ∈ p, c.isWhitespace = true) →
      containsSub (p ++ t) (h :: pat) = containsSub t (h :: pat) := by
  intro p
  induction p with
  | nil => intro t _; rfl
  | cons c p' ih =>
    intro t hp
    rw [List.cons_append, containsSub_cons,
      notPrefix_of_head_mismatch h c pat (p' ++ t) hh (hp c (List.mem_cons_self c p')),
      Bool.false_or]
    exact ih t (fun d hd => hp d (List.mem_cons_of_mem c hd))

theorem pyStrip_decomp (s : List Char) :
    ∃ p q : List Char, s = p ++ pyStrip s ++ q ∧
      (∀ c ∈ p, c.isWhitespace = true) ∧ (∀ c ∈ q, c.isWhitespace = true) := by
  refine ⟨s.takeWhile Char.isWhitespace,
    ((s.dropWhile Char.isWhitespace).reverse.takeWhile Char.isWhitespace).reverse,
    ?_, ?_, ?_⟩
  · have h1 : s.takeWhile Char.isWhitespace ++ s.dropWhile Char.isWhitespace = s :=
      List.takeWhile_append_dropWhile Char.isWhitespace s
    have h2 : (s.dropWhile Char.isWhitespace).reverse.takeWhile Char.isWhitespace ++
        (s.dropWhile Char.isWhitespace).reverse.dropWhile Char.isWhitespace =
        (s.dropWhile Char.isWhitespace).reverse :=
      List.takeWhile_append_dropWhile Char.isWhitespace (s.dropWhile Char.isWhitespace).reverse
    have h3 : s.dropWhile Char.isWhitespace =
        pyStrip s ++
          ((s.dropWhile Char.isWhitespace).reverse.takeWhile Char.isWhitespace).reverse := by
      have := congrArg List.reverse h2
      rw [List.reverse_append, List.reverse_reverse] at this
      rw [pyStrip]
      exact this.symm
    conv_lhs => rw [← h1, h3]
    rw [List.append_assoc]
  · intro c hc
    exact List.mem_takeWhile_imp hc
  · intro c hc
    rw [List.mem_reverse] at hc
    exact List.mem_takeWhile_imp hc

/-- Stripping surrounding whitespace before lower-casing does not change
whether a non-empty, whitespace-free pattern occurs as a substring. -/
theorem containsSub_strip_lower (s pat : List Char) (hne : pat ≠ [])
    (hpat : ∀ c ∈ pat, c.isWhitespace = false) :
    containsSub (pyLower (pyStrip s)) pat = containsSub (pyLower s) pat := by
  obtain ⟨p, q, hs, hp, hq⟩ := pyStrip_decomp s
  cases pat with
  | nil => exact absurd rfl hne
  | cons h pat' =>
    have hh : h.isWhitespace = false := hpat h (List.mem_cons_self h pat')
    have hmap : pyLower s = pyLower p ++ (pyLower (pyStrip s) ++ pyLower q) := by
      conv_lhs => rw [hs]
      simp [pyLower, List.map_append, List.append_assoc]
    have hpws : ∀ c ∈ pyLower p, c.isWhitespace = true := by
      intro c hc
      obtain ⟨d, hd, rfl⟩ := List.mem_map.mp hc
      rw [toLower_of_whitespace d (hp d hd)]
      exact hp d hd
    have hqws : ∀ c ∈ pyLower q, c.isWhitespace = true := by
      intro c hc
      obtain ⟨d, hd, rfl⟩ := List.mem_map.mp hc
      rw [toLower_of_whitespace d (hq d hd)]
      exact hq d hd
    rw [hmap, containsSub_append_ws_left h pat' hh (pyLower p) _ hpws,
      containsSub_append_ws_right (pyLower q) hqws (pyLower (pyStrip s)) h pat' hpat]

/-- C8: For every raw result string, the derived result is "Failed" whenever
the string contains the substring "failed" (case-insensitive), even if it
also contains "passed"; it is "Passed" when the string contains "passed" but
not "failed"; and it is "N/A" otherwise, in which case a diagnostic status
message is recorded for the row. -/
theorem parse_test_result_spec (raw : List Char) :
    (containsCI raw "failed".data = true →
        parse_test_result raw = ("Failed".data, false)) ∧
    (containsCI raw "failed".data = false → containsCI raw "passed".data = true →
        parse_test_result raw = ("Passed".data, false)) ∧
    (containsCI raw "failed".data = false → containsCI raw "passed".data = false →
        parse_test_result raw = ("N/A".data, true)) := by
  have hbf : containsSub (pyLower (pyStrip raw)) "failed".data =
      containsCI raw "failed".data :=
    containsSub_strip_lower raw "failed".data (by decide) (by decide)
  have hbp : containsSub (pyLower (pyStrip raw)) "passed".data =
      containsCI raw "passed".data :=
    containsSub_strip_lower raw "passed".data (by decide) (by decide)
  refine ⟨?_, ?_, ?_⟩
  · intro h1
    simp only [parse_test_result]
    rw [hbf]
    simp [h1]
  · intro h1 h2
    simp only [parse_test_result]
    rw [hbf, hbp]
    simp [h1, h2]
  · intro h1 h2
    simp only [parse_test_result]
    rw [hbf, hbp]
    simp [h1, h2]

/-- Witness for C8: "Failed" beats "Passed" when both substrings occur; a
passed-only string derives "Passed"; an undetermined string derives "N/A"
with the diagnostic recorded. -/
theorem parse_test_result_spec_witness :
    (containsCI "3 Passed, 1 FAILED".data "failed".data = true ∧
      parse_test_result "3 Passed, 1 FAILED".data = ("Failed".data, false)) ∧
    (containsCI "  All Passed ".data "failed".data = false ∧
      containsCI "  All Passed ".data "passed".data = true ∧
      parse_test_result "  All Passed ".data = ("Passed".data, false)) ∧
    (containsCI "skipped".data "failed".data = false ∧
      containsCI "skipped".data "passed".data = false ∧
      parse_test_result "skipped".data = ("N/A".data, true)) :=
  ⟨⟨by decide, (parse_test_result_spec "3 Passed, 1 FAILED".data).1 (by decide)⟩,
   ⟨by decide, by decide,
    (parse_test_result_spec "  All Passed ".data).2.1 (by decide) (by decide)⟩,
   ⟨by decide, by decide,
    (parse_test_result_spec "skipped".data).2.2 (by decide) (by decide)⟩⟩

/-- Witness for C3: the spec's concrete scenario (`503`, `503`, `200` with
max retries 3) succeeds with exactly the two backoff delays 2 and 4; an
all-`503` run exhausts with delays 2 and 4; a `404` fails immediately with no
delay. -/
theorem fetch_retry_behavior_witness :
    fetch_with_retries 3 resp503x2then200 = (some (Except.ok "ok"), [2, 4]) ∧
    fetch_with_retries 3 respAlways503 =
      (some (Except.error (FetchError.exhausted 503 "boom")), [2, 4]) ∧
    fetch_with_retries 3 respAlways404 =
      (some (Except.error (FetchError.immediate 404 "not found")), []) := by
  refine ⟨?_, ?_, ?_⟩
  · have h := (fetch_retry_behavior 3 resp503x2then200).1 3 (by decide) (by decide)
      (by decide) (by decide)
    simpa [resp503x2then200, List.range'] using h
  · have h := (fetch_retry_behavior 3 respAlways503).2.1 (by decide) (by decide)
    simpa [respAlways503, List.range'] using h
  · have h := (fetch_retry_behavior 3 respAlways404).2.2 1 (by decide) (by decide)
      (by decide) (by decide) (by decide)
    simpa [respAlways404, List.range'] using h

/-- Counterexample for C4: a non-empty first-page body that lacks the `total`
field is NOT fatal — the chunk completes with just the first page's items
and raises no error. -/
theorem make_search_missing_total_counterexample :
    make_search_requests 100 c4FetchPage = Except.ok [7] ∧
    ∀ e : FetchError, make_search_requests 100 c4FetchPage ≠ Except.error e := by
  have h1 : make_search_requests 100 c4FetchPage = Except.ok [7] := by decide
  refine ⟨h1, ?_⟩
  intro e he
  rw [h1] at he
  exact Except.noConfusion he

/-- C4 (amended): an empty (falsy) first-page body is fatal for the chunk; a
non-empty first-page body lacking the `total` field is not — `total`
defaults to 0, no further pages are requested, and the chunk completes with
only the first page's items. -/
theorem make_search_first_page_malformed {α : Type} (pageSize : Nat)
    (fetchPage : Nat → Except FetchError (Option (SearchBody α))) :
    (fetchPage 1 = Except.ok none →
      make_search_requests pageSize fetchPage = Except.error FetchError.noData) ∧
    (∀ items : List α, fetchPage 1 = Except.ok (some ⟨none, items⟩) →
      make_search_requests pageSize fetchPage = Except.ok items) := by
  constructor
  · intro h
    simp [make_search_requests, h]
  · intro items h
    have htp : (pageSize - 1) / pageSize = 0 := by
      rcases Nat.eq_zero_or_pos pageSize with h0 | h0
      · subst h0; rfl
      · exact Nat.div_eq_of_lt (by omega)
    simp [make_search_requests, h, htp]

/-- Witness for C4 (amended): concrete falsy and total-less first pages. -/
theorem make_search_first_page_malformed_witness :
    make_search_requests 100 c4FetchPageEmpty = Except.error FetchError.noData ∧
    make_search_requests 100 c4FetchPage = Except.ok [7] :=
  ⟨(make_search_first_page_malformed 100 c4FetchPageEmpty).1 (by decide),
   (make_search_first_page_malformed 100 c4FetchPage).2 [7] (by decide)⟩

/-- The six-in-flight state is reachable from the initial C5 state by
starting chunk 0's five tasks and then one task of chunk 1. -/
theorem c5ReachBad : SemReach 5 c5Init c5Bad := by
  have h1 : SemStep 5 c5Init c5S1 := SemStep.start (0, 2) c5Init (by decide) (by decide)
  have h2 : SemStep 5 c5S1 c5S2 := SemStep.start (0, 3) c5S1 (by decide) (by decide)
  have h3 : SemStep 5 c5S2 c5S3 := SemStep.start (0, 4) c5S2 (by decide) (by decide)
  have h4 : SemStep 5 c5S3 c5S4 := SemStep.start (0, 5) c5S3 (by decide) (by decide)
  have h5 : SemStep 5 c5S4 c5S5 := SemStep.start (0, 6) c5S4 (by decide) (by decide)
  have h6 : SemStep 5 c5S5 c5Bad := SemStep.start (1, 2) c5S5 (by decide) (by decide)
  exact Relation.ReflTransGen.head h1 (Relation.ReflTransGen.head h2
    (Relation.ReflTransGen.head h3 (Relation.ReflTransGen.head h4
      (Relation.ReflTransGen.head h5 (Relation.ReflTransGen.single h6)))))

/-- Counterexample for C5: with the configured maximum 5, a state with six
page requests simultaneously in flight is reachable, because each chunk has
its own `asyncio.Semaphore` — the limiter is not shared across chunks. -/
theorem shared_limiter_counterexample :
    SemReach 5 c5Init c5Bad ∧ c5Init.inflight = [] ∧
      c5Bad.inflight.length = 6 ∧ 5 < c5Bad.inflight.length :=
  ⟨c5ReachBad, rfl, rfl, by decide⟩

/-- C5 (amended): each chunk's page-fetch tasks are governed by that chunk's
own limiter: starting from a state with nothing in flight, every reachable
state has at most N in-flight page requests per chunk (but not globally —
see the counterexample). -/
theorem chunk_limiter_bound (N : Nat) (s0 s : SemState) (h0 : s0.inflight = [])
    (hreach : SemReach N s0 s) : ∀ c, chunkInflight s c ≤ N := by
  induction hreach with
  | refl => intro c; simp [chunkInflight, h0]
  | @tail b d hab hbc ih =>
    intro c
    cases hbc with
    | start t hw hcap =>
      by_cases htc : t.1 = c
      · subst htc
        have hstep : chunkInflight ⟨b.waiting.erase t, t :: b.inflight, b.completed⟩ t.1 =
            chunkInflight b t.1 + 1 := by
          simp [chunkInflight, List.filter_cons]
        omega
      · have hstep : chunkInflight ⟨b.waiting.erase t, t :: b.inflight, b.completed⟩ c =
            chunkInflight b c := by
          simp [chunkInflight, List.filter_cons, htc]
        rw [hstep]
        exact ih c
    | finish t hf =>
      have hsub : List.Sublist ((b.inflight.erase t).filter (fun x => x.1 == c))
          (b.inflight.filter (fun x => x.1 == c)) :=
        List.Sublist.filter _ (List.erase_sublist t b.inflight)
      have hstep : chunkInflight ⟨b.waiting, b.inflight.erase t, t :: b.completed⟩ c ≤
          chunkInflight b c := List.Sublist.length_le hsub
      exact le_trans hstep (ih c)

/-- Witness for C5 (amended): in the six-in-flight state the per-chunk
bound 5 still holds for both chunks. -/
theorem chunk_limiter_bound_witness :
    chunkInflight c5Bad 0 ≤ 5 ∧ chunkInflight c5Bad 1 ≤ 5 :=
  ⟨chunk_limiter_bound 5 c5Init c5Bad rfl c5ReachBad 0,
   chunk_limiter_bound 5 c5Init c5Bad rfl c5ReachBad 1⟩

/-- One-step unfolding of `suiteGo`: a successful attempt returns its id. -/
theorem suiteGo_eq_success {max_retries a d : Nat} {attempts : Nat → SuiteAttempt} {i : Int}
    (hle : a ≤ max_retries) (hs : suiteSuccess (attempts a) = some i) :
    suiteGo max_retries attempts a d = (Except.ok i, []) := by
  have h1 : ¬ (max_retries < a) := by omega
  rw [suiteGo]
  simp [h1, hs]

/-- One-step unfolding of `suiteGo`: a failed attempt before the last sleeps
the current delay, doubles it and retries. -/
theorem suiteGo_eq_fail_mid {max_retries a d : Nat} {attempts : Nat → SuiteAttempt}
    (hlt : a < max_retries) (hs : suiteSuccess (attempts a) = none) :
    suiteGo max_retries attempts a d =
      ((suiteGo max_retries attempts (a + 1) (d * 2)).1,
        d :: (suiteGo max_retries attempts (a + 1) (d * 2)).2) := by
  have h1 : ¬ (max_retries < a) := by omega
  rw [suiteGo]
  simp [h1, hs, hlt]

/-- One-step unfolding of `suiteGo`: a failed final attempt raises. -/
theorem suiteGo_eq_fail_last {max_retries a d : Nat} {attempts : Nat → SuiteAttempt}
    (heq : a = max_retries) (hs : suiteSuccess (attempts a) = none) :
    suiteGo max_retries attempts a d = (Except.error (), []) := by
  subst heq
  have h1 : ¬ (a < a) := by omega
  rw [suiteGo]
  simp [h1, hs]

theorem suiteGo_all_fail (max_retries : Nat) (attempts : Nat → SuiteAttempt) :
    ∀ n a d, max_retries - a = n → a ≤ max_retries →
      (∀ j, j ≤ max_retries → a ≤ j → suiteSuccess (attempts j) = none) →
      suiteGo max_retries attempts a d =
        (Except.error (), (List.range (max_retries - a)).map (fun j => d * 2 ^ j)) := by
  intro n
  induction n with
  | zero =>
    intro a d hma ham h5
    have ham' : a = max_retries := by omega
    rw [suiteGo_eq_fail_last ham' (h5 a (by omega) (Nat.le_refl a))]
    simp [show max_retries - a = 0 from by omega]
  | succ n ih =>
    intro a d hma ham h5
    have halt : a < max_retries := by omega
    rw [suiteGo_eq_fail_mid halt (h5 a (by omega) (Nat.le_refl a)),
      ih (a + 1) (d * 2) (by omega) (by omega) (fun j hjm haj => h5 j hjm (by omega))]
    have hk : max_retries - a = (max_retries - (a + 1)) + 1 := by omega
    rw [hk, List.range_succ_eq_map]
    simp only [List.map_cons, List.map_map, pow_zero, Nat.mul_one]
    refine congrArg _ (congrArg _ ?_)
    refine List.map_congr_left ?_
    intro j _
    simp [Function.comp, pow_succ]
    ring

theorem suiteGo_succeeds (max_retries : Nat) (attempts : Nat → SuiteAttempt) :
    ∀ n k a d, k - a = n → a ≤ k → k ≤ max_retries →
      (∀ j, j < k → a ≤ j → suiteSuccess (attempts j) = none) →
      ∀ i, suiteSuccess (attempts k) = some i →
      suiteGo max_retries attempts a d =
        (Except.ok i, (List.range (k - a)).map (fun j => d * 2 ^ j)) := by
  intro n
  induction n with
  | zero =>
    intro k a d hka hak hkm _ i hs
    have hak' : a = k := by omega
    subst hak'
    rw [suiteGo_eq_success (by omega) hs]
    simp [show a - a = 0 from by omega]
  | succ n ih =>
    intro k a d hka hak hkm h5 i hs
    have halt : a < k := by omega
    rw [suiteGo_eq_fail_mid (by omega) (h5 a halt (Nat.le_refl a)),
      ih k (a + 1) (d * 2) (by omega) (by omega) hkm
        (fun j hj haj => h5 j hj (by omega)) i hs]
    have hk : k - a = (k - (a + 1)) + 1 := by omega
    rw [hk, List.range_succ_eq_map]
    simp only [List.map_cons, List.map_map, pow_zero, Nat.mul_one]
    refine congrArg _ (congrArg _ ?_)
    refine List.map_congr_left ?_
    intro j _
    simp [Function.comp, pow_succ]
    ring

/-- Counterexample for C6: with three attempts all failing, the sleeps are
1 and 2 seconds (`delay_seconds` starts at 1 and doubles after each failed
attempt), not the HTTP caller's `2 ^ attempt` = 2 and 4. -/
theorem create_test_suite_backoff_counterexample :
    create_test_suite 3 suiteAlways500 = (Except.error (), [1, 2]) ∧
    [1, 2] ≠ [2 ^ 1, 2 ^ 2] := by
  constructor
  · have h := suiteGo_all_fail 3 suiteAlways500 2 1 1 rfl (by omega)
      (fun j _ _ => rfl)
    rw [create_test_suite, h]
    simp [List.range_succ]
  · decide

/-- C6 (amended): suite creation is attempted up to the configured maximum
number of attempts with backoff delay `2 ^ (attempt - 1)` time units (1, 2,
4, ... — doubling from 1, unlike the HTTP caller's `2 ^ attempt`) between
failed attempts, and if every attempt fails an error is raised, aborting the
pipeline before any runs are created. -/
theorem create_test_suite_retry_backoff (max_retries : Nat)
    (attempts : Nat → SuiteAttempt) :
    (∀ k i, 1 ≤ k → k ≤ max_retries →
      (∀ j, j < k → 1 ≤ j → suiteSuccess (attempts j) = none) →
      suiteSuccess (attempts k) = some i →
      create_test_suite max_retries attempts =
        (Except.ok i, (List.range (k - 1)).map (fun j => 2 ^ j))) ∧
    ((∀ j, j ≤ max_retries → 1 ≤ j → suiteSuccess (attempts j) = none) →
      create_test_suite max_retries attempts =
        (Except.error (), (List.range (max_retries - 1)).map (fun j => 2 ^ j))) := by
  constructor
  · intro k i h1k hkm h5 hs
    rw [create_test_suite,
      suiteGo_succeeds max_retries attempts (k - 1) k 1 1 (by omega) h1k hkm h5 i hs]
    simp
  · intro h5
    rcases Nat.eq_zero_or_pos max_retries with h0 | h0
    · subst h0
      rw [create_test_suite, suiteGo]
      simp
    · rw [create_test_suite,
        suiteGo_all_fail max_retries attempts (max_retries - 1) 1 1 (by omega) (by omega) h5]
      simp

/-- Witness for C6 (amended): three failing attempts sleep 1 then 2; a
failure followed by a success on attempt 2 sleeps exactly 1. -/
theorem create_test_suite_retry_backoff_witness :
    create_test_suite 3 suiteAlways500 =
      (Except.error (), [2 ^ 0, 2 ^ 1]) ∧
    create_test_suite 2 suite200NoIdThen42 = (Except.ok 42, [2 ^ 0]) := by
  constructor
  · have h := (create_test_suite_retry_backoff 3 suiteAlways500).2
      (fun j _ _ => rfl)
    rw [h]
    simp [List.range_succ]
  · have h := (create_test_suite_retry_backoff 2 suite200NoIdThen42).1 2 42
      (by omega) (by omega) (by decide) (by decide)
    rw [h]
    simp [List.range_succ]

theorem suiteSuccess_eq_some {x : SuiteAttempt} {i : Int}
    (h : suiteSuccess x = some i) :
    x = SuiteAttempt.resp 200 (some i) ∧ i ≠ 0 := by
  cases x with
  | exn => simp [suiteSuccess] at h
  | resp status suiteId =>
    by_cases hst : status = 200
    · subst hst
      cases suiteId with
      | none => simp [suiteSuccess] at h
      | some j =>
        by_cases hj : j = 0
        · subst hj
          simp [suiteSuccess] at h
        · simp [suiteSuccess, hj] at h
          subst h
          exact ⟨rfl, hj⟩
    · simp [suiteSuccess, hst] at h

theorem suiteGo_ok_inv (max_retries : Nat) (attempts : Nat → SuiteAttempt) :
    ∀ n a d i, max_retries + 1 - a = n →
      (suiteGo max_retries attempts a d).1 = Except.ok i →
      ∃ k, a ≤ k ∧ k ≤ max_retries ∧ suiteSuccess (attempts k) = some i := by
  intro n
  induction n with
  | zero =>
    intro a d i hn hok
    have ha : max_retries < a := by omega
    rw [suiteGo] at hok
    simp [ha] at hok
  | succ n ih =>
    intro a d i hn hok
    have ha : a ≤ max_retries := by omega
    cases hsa : suiteSuccess (attempts a) with
    | some j =>
      rw [suiteGo_eq_success ha hsa] at hok
      simp at hok
      exact ⟨a, Nat.le_refl a, ha, hok ▸ hsa⟩
    | none =>
      by_cases hlt : a < max_retries
      · rw [suiteGo_eq_fail_mid hlt hsa] at hok
        simp at hok
        obtain ⟨k, hak, hkm, hk⟩ := ih (a + 1) (d * 2) i (by omega) hok
        exact ⟨k, by omega, hkm, hk⟩
      · rw [suiteGo_eq_fail_last (by omega) hsa] at hok
        simp at hok

/-- C9: a 200 response whose body contains no `id` (or a falsy id) is
treated as a failed attempt — before the last attempt the run continues
exactly like any other failure, sleeping the current delay and doubling it —
and whenever `create_test_suite` returns an id, some attempt answered 200
with that (non-zero) id in its body. -/
theorem create_test_suite_missing_id (max_retries : Nat)
    (attempts : Nat → SuiteAttempt) :
    (∀ a d, 1 ≤ a → a < max_retries → attempts a = SuiteAttempt.resp 200 none →
      suiteGo max_retries attempts a d =
        ((suiteGo max_retries attempts (a + 1) (d * 2)).1,
          d :: (suiteGo max_retries attempts (a + 1) (d * 2)).2)) ∧
    (∀ i, (create_test_suite max_retries attempts).1 = Except.ok i →
      ∃ a, 1 ≤ a ∧ a ≤ max_retries ∧
        attempts a = SuiteAttempt.resp 200 (some i) ∧ i ≠ 0) := by
  constructor
  · intro a d _ hlt hnone
    refine suiteGo_eq_fail_mid hlt ?_
    rw [hnone]
    rfl
  · intro i hok
    obtain ⟨k, h1k, hkm, hk⟩ :=
      suiteGo_ok_inv max_retries attempts (max_retries + 1 - 1) 1 1 i rfl hok
    obtain ⟨hresp, hi⟩ := suiteSuccess_eq_some hk
    exact ⟨k, h1k, hkm, hresp, hi⟩

theorem runsLoop_acc (responses : Nat → Nat → RunAttempt) :
    ∀ rows i acc tr, runsLoop responses i rows acc tr =
      (acc ++ (runsLoop responses i rows [] []).1,
       tr ++ (runsLoop responses i rows [] []).2) := by
  intro rows
  induction rows with
  | nil => intro i acc tr; simp [runsLoop]
  | cons record rest ih =>
    intro i acc tr
    obtain ⟨R1, R2, hR⟩ : ∃ R1 R2, runsLoop responses (i + 1) rest [] [] = (R1, R2) :=
      ⟨_, _, rfl⟩
    have ihs : ∀ X Y, runsLoop responses (i + 1) rest X Y = (X ++ R1, Y ++ R2) :=
      fun X Y => by rw [ih (i + 1) X Y, hR]
    cases hname : record.test_run_name with
    | none =>
      simp only [runsLoop, hname]
      exact ih (i + 1) acc tr
    | some name =>
      cases hcid : record.test_case_id with
      | none =>
        simp only [runsLoop, hname, hcid]
        exact ih (i + 1) acc tr
      | some cid =>
        by_cases hn : name = ""
        · simp only [runsLoop, hname, hcid, hn, ite_true, eq_self_iff_true]
          exact ih (i + 1) acc tr
        · cases hresp : responses i 1 with
          | exn =>
            simp only [runsLoop, hname, hcid, hresp, hn, ite_false]
            simp only [ihs]
            simp
          | resp status runId =>
            by_cases hst : status = 201
            · subst hst
              simp only [runsLoop, hname, hcid, hresp, hn, ite_false, ite_true,
                eq_self_iff_true]
              simp only [ihs]
              simp
            · simp only [runsLoop, hname, hcid, hresp, hn, hst, ite_false]
              simp only [ihs]
              simp

theorem rowContrib_skip (responses : Nat → Nat → RunAttempt) (i : Nat)
    (record : RunTarget)
    (h : record.test_run_name = none ∨ record.test_run_name = some "" ∨
      record.test_case_id = none) :
    rowContrib responses i record = ([], []) := by
  rcases h with h | h | h
  · simp [rowContrib, h]
  · cases hcid : record.test_case_id with
    | none => simp [rowContrib, h, hcid]
    | some cid => simp [rowContrib, h, hcid]
  · cases hname : record.test_run_name with
    | none => simp [rowContrib, hname]
    | some name => simp [rowContrib, hname, h]

theorem rowContrib_created (responses : Nat → Nat → RunAttempt) (i : Nat)
    (record : RunTarget) (name : String) (cid runId : Int)
    (hname : record.test_run_name = some name) (hn : name ≠ "")
    (hcid : record.test_case_id = some cid)
    (hresp : responses i 1 = RunAttempt.resp 201 runId) :
    rowContrib responses i record =
      ([{ test_case_pid := record.test_case_pid, test_case_id := cid,
          test_run_name := name, test_run_id := runId }], [(i, 1)]) := by
  simp [rowContrib, hname, hcid, hresp, hn]

theorem rowContrib_failed (responses : Nat → Nat → RunAttempt) (i : Nat)
    (record : RunTarget) (name : String) (cid : Int)
    (hname : record.test_run_name = some name) (hn : name ≠ "")
    (hcid : record.test_case_id = some cid)
    (hresp : ∀ runId, responses i 1 ≠ RunAttempt.resp 201 runId) :
    rowContrib responses i record = ([], [(i, 1)]) := by
  cases hr : responses i 1 with
  | exn => simp [rowContrib, hname, hcid, hn, hr]
  | resp status runId =>
    have hst : status ≠ 201 := by
      intro he
      subst he
      exact hresp runId hr
    simp [rowContrib, hname, hcid, hn, hr, hst]

theorem runsLoop_join (responses : Nat → Nat → RunAttempt) :
    ∀ rows i, runsLoop responses i rows [] [] =
      (((List.enumFrom i rows).map (fun p => (rowContrib responses p.1 p.2).1)).flatten,
       ((List.enumFrom i rows).map (fun p => (rowContrib responses p.1 p.2).2)).flatten) := by
  intro rows
  induction rows with
  | nil => intro i; simp [runsLoop, List.enumFrom]
  | cons record rest ih =>
    intro i
    obtain ⟨R1, R2, hR⟩ : ∃ R1 R2, runsLoop responses (i + 1) rest [] [] = (R1, R2) :=
      ⟨_, _, rfl⟩
    have ihs : ∀ X Y, runsLoop responses (i + 1) rest X Y = (X ++ R1, Y ++ R2) :=
      fun X Y => by rw [runsLoop_acc responses rest (i + 1) X Y, hR]
    have hcomb := hR.symm.trans (ih (i + 1))
    have hc1 := congrArg Prod.fst hcomb
    have hc2 := congrArg Prod.snd hcomb
    simp at hc1 hc2
    cases hname : record.test_run_name with
    | none =>
      simp only [runsLoop, hname, List.enumFrom, List.map_cons, List.flatten_cons]
      rw [rowContrib_skip responses i record (Or.inl hname), ihs]
      simp [hc1, hc2]
    | some name =>
      cases hcid : record.test_case_id with
      | none =>
        simp only [runsLoop, hname, hcid, List.enumFrom, List.map_cons, List.flatten_cons]
        rw [rowContrib_skip responses i record (Or.inr (Or.inr hcid)), ihs]
        simp [hc1, hc2]
      | some cid =>
        by_cases hn : name = ""
        · subst hn
          simp only [runsLoop, hname, hcid, ite_true, eq_self_iff_true,
            List.enumFrom, List.map_cons, List.flatten_cons]
          rw [rowContrib_skip responses i record (Or.inr (Or.inl hname)), ihs]
          simp [hc1, hc2]
        · cases hresp : responses i 1 with
          | exn =>
            simp only [runsLoop, hname, hcid, hresp, hn, ite_false,
              List.enumFrom, List.map_cons, List.flatten_cons]
            rw [rowContrib_failed responses i record name cid hname hn hcid
              (fun runId h => by rw [hresp] at h; exact RunAttempt.noConfusion h), ihs]
            simp [hc1, hc2]
          | resp status runId =>
            by_cases hst : status = 201
            · subst hst
              simp only [runsLoop, hname, hcid, hresp, hn, ite_false, ite_true,
                eq_self_iff_true, List.enumFrom, List.map_cons, List.flatten_cons]
              rw [rowContrib_created responses i record name cid runId hname hn hcid hresp,
                ihs]
              simp [hc1, hc2]
            · simp only [runsLoop, hname, hcid, hresp, hn, hst, ite_false,
                List.enumFrom, List.map_cons, List.flatten_cons]
              rw [rowContrib_failed responses i record name cid hname hn hcid
                (fun rid h => by
                  rw [hresp] at h
                  injection h with h1 h2
                  exact hst h1), ihs]
              simp [hc1, hc2]


/-- Counterexample for C7: run creation performs no retry.  With a target
whose single POST fails (500) but whose second attempt would answer 201,
the run table stays empty and the request trace shows exactly one request,
for attempt 1 only. -/
theorem create_test_runs_no_retry_counterexample :
    create_test_runs c7Responses [c7Target] = ([], [(0, 1)]) ∧
    c7Responses 0 2 = RunAttempt.resp 201 99 := by
  constructor
  · decide
  · decide

/-- C7 (amended): each target is processed independently — the run table
and request trace are the concatenation of per-target contributions — where
a target lacking a run name or case id contributes nothing (no request is
made); an eligible target issues exactly one request (attempt 1, no retry
loop exists); on a 201 response it contributes the record
{pid, caseId, runName, runId}; on any failure it contributes no record,
never aborting the batch or affecting the remaining targets. -/
theorem create_test_runs_per_target (responses : Nat → Nat → RunAttempt)
    (valid_case_df : List RunTarget) :
    create_test_runs responses valid_case_df =
      ((valid_case_df.enum.map (fun p => (rowContrib responses p.1 p.2).1)).flatten,
       (valid_case_df.enum.map (fun p => (rowContrib responses p.1 p.2).2)).flatten) ∧
    (∀ i record, (record.test_run_name = none ∨ record.test_run_name = some "" ∨
        record.test_case_id = none) →
      rowContrib responses i record = ([], [])) ∧
    (∀ i record name cid runId, record.test_run_name = some name → name ≠ "" →
      record.test_case_id = some cid → responses i 1 = RunAttempt.resp 201 runId →
      rowContrib responses i record =
        ([{ test_case_pid := record.test_case_pid, test_case_id := cid,
            test_run_name := name, test_run_id := runId }], [(i, 1)])) ∧
    (∀ i record name cid, record.test_run_name = some name → name ≠ "" →
      record.test_case_id = some cid →
      (∀ runId, responses i 1 ≠ RunAttempt.resp 201 runId) →
      rowContrib responses i record = ([], [(i, 1)])) := by
  refine ⟨?_, ?_, ?_, ?_⟩
  · rw [create_test_runs, runsLoop_join]
    rfl
  · intro i record h
    rcases h with h | h | h
    · simp [rowContrib, h]
    · cases hcid : record.test_case_id with
      | none => simp [rowContrib, h, hcid]
      | some cid => simp [rowContrib, h, hcid]
    · cases hname : record.test_run_name with
      | none => simp [rowContrib, hname]
      | some name => simp [rowContrib, hname, h]
  · intro i record name cid runId hname hn hcid hresp
    simp [rowContrib, hname, hcid, hresp, hn]
  · intro i record name cid hname hn hcid hresp
    cases hr : responses i 1 with
    | exn => simp [rowContrib, hname, hcid, hn, hr]
    | resp status runId =>
      have hst : status ≠ 201 := by
        intro he
        subst he
        exact hresp runId hr
      simp [rowContrib, hname, hcid, hn, hr, hst]

/-- Witness for C7 (amended): an ineligible target contributes nothing; an
eligible target with a 201 contributes its record and one request; an
eligible target whose request fails contributes one request and no record. -/
theorem create_test_runs_per_target_witness :
    rowContrib c7Responses 0 c7Skip = ([], []) ∧
    rowContrib c7ResponsesOk 0 c7Target =
      ([{ test_case_pid := "TC-1", test_case_id := 7,
          test_run_name := "Run1", test_run_id := 99 }], [(0, 1)]) ∧
    rowContrib c7Responses 0 c7Target = ([], [(0, 1)]) := by
  refine ⟨?_, ?_, ?_⟩
  · exact (create_test_runs_per_target c7Responses []).2.1 0 c7Skip (Or.inl rfl)
  · exact (create_test_runs_per_target c7ResponsesOk []).2.2.1 0 c7Target "Run1" 7 99
      rfl (by decide) rfl (by decide)
  · refine (create_test_runs_per_target c7Responses []).2.2.2 0 c7Target "Run1" 7
      rfl (by decide) rfl ?_
    intro runId h
    simp [c7Responses] at h

/-- C10: during result posting, when more than one run record matches a
target's pid, or more than one step record matches that pid, the first
matching row is used (its run id and its step id) and the execution log is
posted with that first step's id; a mapped target with at least one
matching run and step is posted, never skipped for multiplicity. -/
theorem execute_uses_first_match (mapping : String → Option Int)
    (valid_case_df : List ExecRow) (test_runs : List RunRecord)
    (test_case_step_df : List StepRow) :
    ∀ record ∈ valid_case_df, ∀ code, mapping record.test_result = some code →
    ∀ run0 runRest,
      test_runs.filter (fun tr => tr.test_case_pid == record.test_case_pid) =
        run0 :: runRest →
    ∀ step0 stepRest,
      test_case_step_df.filter (fun s => s.pid == record.test_case_pid) =
        step0 :: stepRest →
    ({ test_case_pid := record.test_case_pid, test_run_id := run0.test_run_id,
       result_code := code, result_name := record.test_result,
       step_id := step0.step_id, actual_result := record.pdf_file_path } : PostedLog) ∈
      execute_test_runs mapping valid_case_df test_runs test_case_step_df := by
  intro record hrec code hcode run0 runRest hruns step0 stepRest hsteps
  refine List.mem_filterMap.mpr ⟨record, hrec, ?_⟩
  simp only [hcode, hruns, hsteps]

theorem any_beq_eq_decide_mem (updated : List CaseRow) (p : String) :
    (updated.any (fun c => c.pid == p)) = decide (p ∈ updated.map CaseRow.pid) := by
  by_cases hm : p ∈ updated.map CaseRow.pid
  · obtain ⟨c, hc, hcp⟩ := List.mem_map.mp hm
    have ha : updated.any (fun c => c.pid == p) = true :=
      List.any_eq_true.mpr ⟨c, hc, by simp [hcp]⟩
    rw [ha]
    simp [hm]
  · have ha : updated.any (fun c => c.pid == p) = false := by
      refine List.any_eq_false.mpr ?_
      intro c hc
      simp only [beq_iff_eq]
      intro he
      exact hm (List.mem_map.mpr ⟨c, hc, he⟩)
    rw [ha]
    simp [hm]

theorem flatMap_eq_nil_of {α β : Type} (l : List α) (f : α → List β)
    (h : ∀ a ∈ l, f a = []) : l.flatMap f = [] := by
  induction l with
  | nil => rfl
  | cons a rest ih =>
    rw [List.flatMap_cons, h a (List.mem_cons_self a rest),
      ih (fun b hb => h b (List.mem_cons_of_mem a hb))]
    rfl

/-- C2: the step table produced by the re-fetch operation equals the old
rows whose pid is not in the changed set, concatenated with the freshly
fetched and flattened step rows for each changed case; every surviving row
with a changed pid is freshly fetched (no stale row is carried over); and a
changed case whose step fetch yields nothing contributes zero rows without
failing the batch. -/
theorem update_case_steps_spec (stepsFor : Int → Int → List StepData) (project_id : Int)
    (updated_cases_df : List CaseRow) (test_case_step_df : List StepRow) :
    update_case_steps stepsFor project_id updated_cases_df test_case_step_df =
      test_case_step_df.filter
        (fun s => !(decide (s.pid ∈ updated_cases_df.map CaseRow.pid))) ++
      updated_cases_df.flatMap (fun row =>
        (stepsFor row.id row.test_case_version_id).map (freshStepRow project_id row)) ∧
    (∀ s ∈ update_case_steps stepsFor project_id updated_cases_df test_case_step_df,
      s.pid ∈ updated_cases_df.map CaseRow.pid →
      ∃ row ∈ updated_cases_df, ∃ st ∈ stepsFor row.id row.test_case_version_id,
        s = freshStepRow project_id row st) ∧
    ((∀ c ∈ updated_cases_df, stepsFor c.id c.test_case_version_id = []) →
      update_case_steps stepsFor project_id updated_cases_df test_case_step_df =
        test_case_step_df.filter
          (fun s => !(decide (s.pid ∈ updated_cases_df.map CaseRow.pid)))) := by
  have hfil : test_case_step_df.filter
      (fun s => !(updated_cases_df.any (fun c => c.pid == s.pid))) =
      test_case_step_df.filter
        (fun s => !(decide (s.pid ∈ updated_cases_df.map CaseRow.pid))) :=
    List.filter_congr (fun s _ => by rw [any_beq_eq_decide_mem])
  have heq : update_case_steps stepsFor project_id updated_cases_df test_case_step_df =
      test_case_step_df.filter
        (fun s => !(decide (s.pid ∈ updated_cases_df.map CaseRow.pid))) ++
      updated_cases_df.flatMap (fun row =>
        (stepsFor row.id row.test_case_version_id).map (freshStepRow project_id row)) := by
    simp only [update_case_steps]
    rw [hfil]
  refine ⟨heq, ?_, ?_⟩
  · intro s hs hpid
    rw [heq] at hs
    rcases List.mem_append.mp hs with hs | hs
    · have := (List.mem_filter.mp hs).2
      simp only [Bool.not_eq_true', decide_eq_false_iff_not] at this
      exact absurd hpid this
    · obtain ⟨row, hrow, hmem⟩ := List.mem_flatMap.mp hs
      obtain ⟨st, hst, hfresh⟩ := List.mem_map.mp hmem
      exact ⟨row, hrow, st, hst, hfresh.symm⟩
  · intro hall
    rw [heq, flatMap_eq_nil_of updated_cases_df _
      (fun c hc => by rw [hall c hc]; rfl), List.append_nil]

theorem mem_insertDescBy (key : VersionDescriptor → Int) (x : VersionDescriptor) :
    ∀ l z, z ∈ insertDescBy key x l ↔ z = x ∨ z ∈ l := by
  intro l
  induction l with
  | nil => intro z; simp [insertDescBy]
  | cons y ys ih =>
    intro z
    by_cases h : key y < key x
    · simp [insertDescBy, h, List.mem_cons]
    · simp only [insertDescBy, h, ite_false, List.mem_cons, ih z]
      tauto

theorem mem_sortAux (key : VersionDescriptor → Int) :
    ∀ (l acc : List VersionDescriptor) (z : VersionDescriptor),
      z ∈ l.foldl (fun acc x => insertDescBy key x acc) acc ↔
      z ∈ acc ∨ z ∈ l := by
  intro l
  induction l with
  | nil => intro acc z; simp
  | cons x xs ih =>
    intro acc z
    rw [List.foldl_cons, ih (insertDescBy key x acc) z, mem_insertDescBy key x acc z]
    simp only [List.mem_cons]
    tauto

theorem mem_sortDescBy (key : VersionDescriptor → Int) (l : List VersionDescriptor)
    (z : VersionDescriptor) : z ∈ sortDescBy key l ↔ z ∈ l := by
  rw [sortDescBy, mem_sortAux]
  simp

theorem pairwise_insertDescBy (key : VersionDescriptor → Int) (x : VersionDescriptor) :
    ∀ l, l.Pairwise (fun a b => key b ≤ key a) →
      (insertDescBy key x l).Pairwise (fun a b => key b ≤ key a) := by
  intro l
  induction l with
  | nil => intro _; simp [insertDescBy]
  | cons y ys ih =>
    intro h
    rw [List.pairwise_cons] at h
    by_cases hk : key y < key x
    · simp only [insertDescBy, hk, ite_true]
      rw [List.pairwise_cons]
      refine ⟨?_, List.pairwise_cons.mpr h⟩
      intro z hz
      rcases List.mem_cons.mp hz with rfl | hz
      · exact le_of_lt hk
      · exact le_trans (h.1 z hz) (le_of_lt hk)
    · simp only [insertDescBy, hk, ite_false]
      rw [List.pairwise_cons]
      refine ⟨?_, ih h.2⟩
      intro z hz
      rcases (mem_insertDescBy key x ys z).mp hz with rfl | hz
      · omega
      · exact h.1 z hz

theorem pairwise_sortAux (key : VersionDescriptor → Int) :
    ∀ (l acc : List VersionDescriptor), acc.Pairwise (fun a b => key b ≤ key a) →
      (l.foldl (fun acc x => insertDescBy key x acc) acc).Pairwise
        (fun a b => key b ≤ key a) := by
  intro l
  induction l with
  | nil => intro acc h; exact h
  | cons x xs ih =>
    intro acc h
    rw [List.foldl_cons]
    exact ih (insertDescBy key x acc) (pairwise_insertDescBy key x acc h)

theorem pairwise_sortDescBy (key : VersionDescriptor → Int) (l : List VersionDescriptor) :
    (sortDescBy key l).Pairwise (fun a b => key b ≤ key a) :=
  pairwise_sortAux key l [] List.Pairwise.nil

/-- The head of the stable descending sort is a maximal-key member of the
input. -/
theorem sortDescBy_head_max (key : VersionDescriptor → Int) (l : List VersionDescriptor)
    (best : VersionDescriptor) (rest : List VersionDescriptor)
    (h : sortDescBy key l = best :: rest) :
    best ∈ l ∧ ∀ v ∈ l, key v ≤ key best := by
  have hmem : best ∈ l := by
    rw [← mem_sortDescBy key l best, h]
    exact List.mem_cons_self best rest
  refine ⟨hmem, ?_⟩
  intro v hv
  have hv' : v ∈ best :: rest := by
    rw [← h, mem_sortDescBy]
    exact hv
  rcases List.mem_cons.mp hv' with rfl | hv'
  · exact le_refl _
  · have hp := pairwise_sortDescBy key l
    rw [h, List.pairwise_cons] at hp
    exact hp.1 v hv'

theorem sortDescBy_ne_nil (key : VersionDescriptor → Int) (l : List VersionDescriptor)
    (h : l ≠ []) : sortDescBy key l ≠ [] := by
  cases l with
  | nil => exact absurd rfl h
  | cons x xs =>
    intro hs
    have hx : x ∈ sortDescBy key (x :: xs) :=
      (mem_sortDescBy key (x :: xs) x).mpr (List.mem_cons_self x xs)
    rw [hs] at hx
    exact List.not_mem_nil x hx

theorem overwriteRow_pid (r : CaseRow) (v : VersionDescriptor) :
    (overwriteRow r v).pid = r.pid := rfl

theorem applyFields_pid (r u : CaseRow) : (applyFields r u).pid = r.pid := rfl

theorem processNeedsUpdate_mem (versions : Int → List VersionDescriptor) :
    ∀ (l : List CaseRow) (u : CaseRow), u ∈ (processNeedsUpdate versions l).1 ↔
      ∃ row ∈ l, ∃ latest rest,
        sortDescBy versionKey (approvedOf versions row) = latest :: rest ∧
        u = overwriteRow row latest := by
  intro l
  induction l with
  | nil => intro u; simp [processNeedsUpdate]
  | cons row rest ih =>
    intro u
    cases hs : sortDescBy versionKey (approvedOf versions row) with
    | nil =>
      simp only [processNeedsUpdate, hs]
      rw [ih u]
      constructor
      · rintro ⟨row', hr', latest', rest', hs', he⟩
        exact ⟨row', List.mem_cons_of_mem row hr', latest', rest', hs', he⟩
      · rintro ⟨row', hrow', latest', rest', hs', he⟩
        rcases List.mem_cons.mp hrow' with h | hr'
        · subst h
          rw [hs] at hs'
          exact absurd hs' (List.noConfusion)
        · exact ⟨row', hr', latest', rest', hs', he⟩
    | cons latest rst =>
      simp only [processNeedsUpdate, hs, List.mem_cons]
      rw [ih u]
      constructor
      · rintro (rfl | ⟨row', hr', latest', rest', hs', he⟩)
        · exact ⟨row, Or.inl rfl, latest, rst, hs, rfl⟩
        · exact ⟨row', Or.inr hr', latest', rest', hs', he⟩
      · rintro ⟨row', hrow', latest', rest', hs', he⟩
        rcases hrow' with h | hr'
        · subst h
          rw [hs] at hs'
          injection hs' with h1 _
          subst h1
          exact Or.inl he
        · exact Or.inr ⟨row', hr', latest', rest', hs', he⟩

theorem processNeedsUpdate_warn (versions : Int → List VersionDescriptor) :
    ∀ (l : List CaseRow) (row : CaseRow), row ∈ l →
      sortDescBy versionKey (approvedOf versions row) = [] →
      (row.id, row.pid) ∈ (processNeedsUpdate versions l).2 := by
  intro l
  induction l with
  | nil => intro row h; exact absurd h (List.not_mem_nil row)
  | cons r rest ih =>
    intro row hrow hsort
    rcases List.mem_cons.mp hrow with h | hr
    · subst h
      simp only [processNeedsUpdate, hsort]
      exact List.mem_cons_self _ _
    · cases hs : sortDescBy versionKey (approvedOf versions r) with
      | nil =>
        simp only [processNeedsUpdate, hs]
        exact List.mem_cons_of_mem _ (ih row hr hsort)
      | cons latest rst =>
        simp only [processNeedsUpdate, hs]
        exact ih row hr hsort

theorem processNeedsUpdate_pids (versions : Int → List VersionDescriptor) :
    ∀ l : List CaseRow,
      List.Sublist ((processNeedsUpdate versions l).1.map CaseRow.pid)
        (l.map CaseRow.pid) := by
  intro l
  induction l with
  | nil => simp [processNeedsUpdate]
  | cons row rest ih =>
    cases hs : sortDescBy versionKey (approvedOf versions row) with
    | nil =>
      simp only [processNeedsUpdate, hs, List.map_cons]
      exact List.Sublist.cons row.pid ih
    | cons latest rst =>
      simp only [processNeedsUpdate, hs, List.map_cons, overwriteRow_pid]
      exact List.Sublist.cons₂ row.pid ih

theorem map_id_of_no_match (u : CaseRow) :
    ∀ l : List CaseRow, (∀ s ∈ l, (s.pid == u.pid) = false) →
      l.map (fun r => if r.pid == u.pid then applyFields r u else r) = l := by
  intro l
  induction l with
  | nil => intro _; rfl
  | cons r rs ih =>
    intro h
    rw [List.map_cons, h r (List.mem_cons_self r rs), ih
      (fun s hs => h s (List.mem_cons_of_mem r hs))]
    simp

theorem applyUpdateFirst_char (u : CaseRow) :
    ∀ df : List CaseRow, (df.map CaseRow.pid).Nodup →
      applyUpdateFirst df u =
        (df.map (fun r => if r.pid == u.pid then applyFields r u else r),
         df.any (fun r => r.pid == u.pid)) := by
  intro df
  induction df with
  | nil => intro _; rfl
  | cons r rs ih =>
    intro hnd
    rw [List.map_cons] at hnd
    have hnd' := List.nodup_cons.mp hnd
    cases hru : (r.pid == u.pid) with
    | false =>
      simp only [applyUpdateFirst, hru, Bool.false_eq_true, ite_false,
        List.map_cons, List.any_cons, Bool.false_or]
      rw [ih hnd'.2]
    | true =>
      simp only [applyUpdateFirst, hru, ite_true, List.map_cons, List.any_cons,
        Bool.true_or]
      have hrs : ∀ s ∈ rs, (s.pid == u.pid) = false := by
        intro s hs
        have hne : s.pid ≠ r.pid := by
          intro he
          exact hnd'.1 (he ▸ List.mem_map.mpr ⟨s, hs, rfl⟩)
        have hre : r.pid = u.pid := beq_iff_eq.mp hru
        refine beq_eq_false_iff_ne.mpr ?_
        rw [← hre]
        exact hne
      rw [map_id_of_no_match u rs hrs]

theorem applyUpdateFirst_pids (u : CaseRow) :
    ∀ df : List CaseRow,
      ((applyUpdateFirst df u).1).map CaseRow.pid = df.map CaseRow.pid := by
  intro df
  induction df with
  | nil => rfl
  | cons r rs ih =>
    cases hru : (r.pid == u.pid) with
    | false =>
      simp only [applyUpdateFirst, hru, Bool.false_eq_true, ite_false, List.map_cons]
      rw [ih]
    | true =>
      simp only [applyUpdateFirst, hru, ite_true, List.map_cons, applyFields_pid]

theorem find?_nodup_self :
    ∀ (us : List CaseRow) (u : CaseRow), (us.map CaseRow.pid).Nodup → u ∈ us →
      us.find? (fun v => v.pid == u.pid) = some u := by
  intro us
  induction us with
  | nil => intro u _ hu; exact absurd hu (List.not_mem_nil u)
  | cons w ws ih =>
    intro u hnd hu
    rw [List.map_cons] at hnd
    have hnd' := List.nodup_cons.mp hnd
    rcases List.mem_cons.mp hu with h | hu'
    · subst h
      rw [List.find?_cons_of_pos]
      simp
    · have hwp : (w.pid == u.pid) = false := by
        refine beq_eq_false_iff_ne.mpr ?_
        intro he
        exact hnd'.1 (he ▸ List.mem_map.mpr ⟨u, hu', rfl⟩)
      rw [List.find?_cons_of_neg, ih u hnd'.2 hu']
      simp [hwp]

theorem applyUpdates_char :
    ∀ (us df : List CaseRow), (df.map CaseRow.pid).Nodup →
      (us.map CaseRow.pid).Nodup → (∀ u ∈ us, u.pid ∈ df.map CaseRow.pid) →
      applyUpdates df us =
        (df.map (fun r => match us.find? (fun v => v.pid == r.pid) with
          | some u => applyFields r u
          | none => r),
         us.map CaseRow.pid) := by
  intro us
  induction us with
  | nil =>
    intro df _ _ _
    simp only [applyUpdates, List.find?_nil, List.map_nil]
    rw [show (fun (r : CaseRow) =>
        match (none : Option CaseRow) with
        | some u => applyFields r u
        | none => r) = fun r => r from rfl]
    simp
  | cons u us ih =>
    intro df hdf hus hmem
    rw [List.map_cons] at hus
    have hus' := List.nodup_cons.mp hus
    have hany : df.any (fun r => r.pid == u.pid) = true := by
      obtain ⟨r, hr, hre⟩ := List.mem_map.mp (hmem u (List.mem_cons_self u us))
      exact List.any_eq_true.mpr ⟨r, hr, by simp [hre]⟩
    have hstep := applyUpdateFirst_char u df hdf
    simp only [applyUpdates, hstep, hany, ite_true, List.map_cons]
    have hpids : (df.map (fun r => if r.pid == u.pid then applyFields r u else r)).map
        CaseRow.pid = df.map CaseRow.pid := by
      have h1 := applyUpdateFirst_pids u df
      rw [hstep] at h1
      exact h1
    rw [ih (df.map (fun r => if r.pid == u.pid then applyFields r u else r))
      (by rw [hpids]; exact hdf) hus'.2
      (fun v hv => by rw [hpids]; exact hmem v (List.mem_cons_of_mem u hv))]
    refine congrArg (fun x => (x, u.pid :: us.map CaseRow.pid)) ?_
    rw [List.map_map]
    refine List.map_congr_left ?_
    intro r _
    simp only [Function.comp]
    cases hru : (r.pid == u.pid) with
    | false =>
      simp only [Bool.false_eq_true, ite_false]
      have hur : (u.pid == r.pid) = false := by
        refine beq_eq_false_iff_ne.mpr ?_
        intro he
        exact absurd (beq_iff_eq.mpr he.symm) (by rw [hru]; simp)
      rw [List.find?_cons_of_neg]
      simp [hur]
    | true =>
      simp only [ite_true]
      have hre : r.pid = u.pid := beq_iff_eq.mp hru
      have hnone : us.find? (fun v => v.pid == (applyFields r u).pid) = none := by
        refine List.find?_eq_none.mpr ?_
        intro v hv
        rw [applyFields_pid]
        simp only [beq_iff_eq, hre]
        intro he
        exact hus'.1 (he ▸ List.mem_map.mpr ⟨v, hv, rfl⟩)
      have hpos : (u.pid == r.pid) = true := beq_iff_eq.mpr hre.symm
      rw [List.find?_cons_of_pos, hnone]
      simp [hpos]

/-- The resolver output table is the pointwise image of the input under the
write-back of the (unique, by pid-distinctness) matching updated row. -/
theorem get_latest_output_char (versions : Int → List VersionDescriptor)
    (test_case_df : List CaseRow) (hne : test_case_df ≠ [])
    (hnd : (test_case_df.map CaseRow.pid).Nodup) :
    ∃ chg, get_latest_approved_versions versions test_case_df =
      Except.ok
        (test_case_df.map (fun r =>
          match (processNeedsUpdate versions
              (test_case_df.filter (fun r => !(endsWith0 r.version)))).1.find?
              (fun v => v.pid == r.pid) with
          | some u => applyFields r u
          | none => r),
         chg,
         (processNeedsUpdate versions
           (test_case_df.filter (fun r => !(endsWith0 r.version)))).2) := by
  have hempty : test_case_df.isEmpty = false := by
    cases test_case_df with
    | nil => exact absurd rfl hne
    | cons a l => rfl
  by_cases hpw1 : (processNeedsUpdate versions
      (test_case_df.filter (fun r => !(endsWith0 r.version)))).1 = []
  · refine ⟨[], ?_⟩
    simp only [get_latest_approved_versions, hempty, Bool.false_eq_true, ite_false,
      hpw1, List.isEmpty_nil, ite_true]
    rw [show test_case_df.map (fun r =>
        match ([] : List CaseRow).find? (fun v => v.pid == r.pid) with
        | some u => applyFields r u
        | none => r) = test_case_df.map (fun r => r) from rfl]
    simp
  · have hndu : ((processNeedsUpdate versions
        (test_case_df.filter (fun r => !(endsWith0 r.version)))).1.map
          CaseRow.pid).Nodup := by
      refine List.Nodup.sublist ?_ hnd
      exact List.Sublist.trans
        (processNeedsUpdate_pids versions
          (test_case_df.filter (fun r => !(endsWith0 r.version))))
        (List.Sublist.map CaseRow.pid (List.filter_sublist test_case_df))
    have hmemu : ∀ u ∈ (processNeedsUpdate versions
        (test_case_df.filter (fun r => !(endsWith0 r.version)))).1,
        u.pid ∈ test_case_df.map CaseRow.pid := by
      intro u hu
      obtain ⟨row, hrow, latest, rest, _, he⟩ :=
        (processNeedsUpdate_mem versions _ u).mp hu
      subst he
      rw [overwriteRow_pid]
      exact List.mem_map.mpr ⟨row, (List.mem_filter.mp hrow).1, rfl⟩
    have hau := applyUpdates_char
      (processNeedsUpdate versions
        (test_case_df.filter (fun r => !(endsWith0 r.version)))).1
      test_case_df hnd hndu hmemu
    have hpe : (processNeedsUpdate versions
        (test_case_df.filter (fun r => !(endsWith0 r.version)))).1.isEmpty = false := by
      cases hc : (processNeedsUpdate versions
          (test_case_df.filter (fun r => !(endsWith0 r.version)))).1 with
      | nil => exact absurd hc hpw1
      | cons a l => rfl
    have hfull : get_latest_approved_versions versions test_case_df =
        Except.ok
          (test_case_df.map (fun r =>
            match (processNeedsUpdate versions
                (test_case_df.filter (fun r => !(endsWith0 r.version)))).1.find?
                (fun v => v.pid == r.pid) with
            | some u => applyFields r u
            | none => r),
           (test_case_df.map (fun r =>
            match (processNeedsUpdate versions
                (test_case_df.filter (fun r => !(endsWith0 r.version)))).1.find?
                (fun v => v.pid == r.pid) with
            | some u => applyFields r u
            | none => r)).filter (fun r =>
              ((processNeedsUpdate versions
                (test_case_df.filter (fun r => !(endsWith0 r.version)))).1.map
                  CaseRow.pid).contains r.pid),
           (processNeedsUpdate versions
             (test_case_df.filter (fun r => !(endsWith0 r.version)))).2) := by
      simp only [get_latest_approved_versions, hempty, Bool.false_eq_true, ite_false,
        hpe, hau]
    exact ⟨_, hfull⟩

/-- C1 (amended; the claim additionally needs the fetched table's pids to be
pairwise distinct, as the counterexample shows): for every non-empty fetched
case table with pairwise-distinct pids, the resolver succeeds, preserves the
table's length, and row by row: a row whose version already ends in ".0" is
never modified; a row whose version does not end in ".0" and whose fetched
history has no ".0" entry is left completely unchanged with a warning
logged; and every other such row has its id, version and
test_case_version_id overwritten with those of a history entry of maximal
leading integer among the ".0" entries. -/
theorem get_latest_approved_spec (versions : Int → List VersionDescriptor)
    (test_case_df : List CaseRow) (hne : test_case_df ≠ [])
    (hnd : (test_case_df.map CaseRow.pid).Nodup) :
    (∀ e, get_latest_approved_versions versions test_case_df ≠ Except.error e) ∧
    (∀ (out changed : List CaseRow) (warnings : List (Int × String)),
      get_latest_approved_versions versions test_case_df =
        Except.ok (out, changed, warnings) →
      out.length = test_case_df.length ∧
      ∀ (i : Nat) (row : CaseRow), test_case_df[i]? = some row →
        ((endsWith0 row.version = true → out[i]? = some row) ∧
         (endsWith0 row.version = false → approvedOf versions row = [] →
           out[i]? = some row ∧ (row.id, row.pid) ∈ warnings) ∧
         (endsWith0 row.version = false → approvedOf versions row ≠ [] →
           ∃ latest, out[i]? = some (overwriteRow row latest) ∧
             latest ∈ approvedOf versions row ∧
             ∀ v ∈ approvedOf versions row, versionKey v ≤ versionKey latest))) := by
  obtain ⟨chg, hout⟩ := get_latest_output_char versions test_case_df hne hnd
  constructor
  · intro e he
    rw [hout] at he
    exact Except.noConfusion he
  · intro out changed warnings heq
    rw [hout] at heq
    injection heq with heq
    injection heq with h1 heq
    injection heq with h2 h3
    subst h1
    subst h3
    constructor
    · exact List.length_map _ _
    · intro i row hrow
      have hmemrow : row ∈ test_case_df := List.getElem?_mem hrow
      have hget : (test_case_df.map (fun r =>
          match (processNeedsUpdate versions
              (test_case_df.filter (fun r => !(endsWith0 r.version)))).1.find?
              (fun v => v.pid == r.pid) with
          | some u => applyFields r u
          | none => r))[i]? =
          some (match (processNeedsUpdate versions
              (test_case_df.filter (fun r => !(endsWith0 r.version)))).1.find?
              (fun v => v.pid == row.pid) with
          | some u => applyFields row u
          | none => row) := by
        rw [List.getElem?_map, hrow]
        rfl
      have hfind_none : ∀ hcond : endsWith0 row.version = true ∨
          approvedOf versions row = [],
          (processNeedsUpdate versions
            (test_case_df.filter (fun r => !(endsWith0 r.version)))).1.find?
            (fun v => v.pid == row.pid) = none := by
        intro hcond
        refine List.find?_eq_none.mpr ?_
        intro u hu
        simp only [beq_iff_eq]
        intro hpe
        obtain ⟨row', hrow', latest, rest, hsort, he⟩ :=
          (processNeedsUpdate_mem versions _ u).mp hu
        have hpe' : row'.pid = row.pid := by
          rw [← overwriteRow_pid row' latest, ← he]
          exact hpe
        have hrow'df : row' ∈ test_case_df := (List.mem_filter.mp hrow').1
        have : row' = row := List.inj_on_of_nodup_map hnd hrow'df hmemrow hpe'
        subst this
        rcases hcond with hc | hc
        · have := (List.mem_filter.mp hrow').2
          rw [hc] at this
          simp at this
        · rw [hc] at hsort
          exact List.noConfusion hsort
      refine ⟨?_, ?_, ?_⟩
      · intro hc
        rw [hget, hfind_none (Or.inl hc)]
      · intro hc happ
        have hneeds : row ∈ test_case_df.filter (fun r => !(endsWith0 r.version)) :=
          List.mem_filter.mpr ⟨hmemrow, by rw [hc]; rfl⟩
        refine ⟨by rw [hget, hfind_none (Or.inr happ)], ?_⟩
        refine processNeedsUpdate_warn versions _ row hneeds ?_
        rw [happ]
        rfl
      · intro hc happ
        have hneeds : row ∈ test_case_df.filter (fun r => !(endsWith0 r.version)) :=
          List.mem_filter.mpr ⟨hmemrow, by rw [hc]; rfl⟩
        cases hsort : sortDescBy versionKey (approvedOf versions row) with
        | nil => exact absurd hsort (sortDescBy_ne_nil versionKey _ happ)
        | cons latest rst =>
          have hu : overwriteRow row latest ∈ (processNeedsUpdate versions
              (test_case_df.filter (fun r => !(endsWith0 r.version)))).1 :=
            (processNeedsUpdate_mem versions _ _).mpr
              ⟨row, hneeds, latest, rst, hsort, rfl⟩
          have hndu : ((processNeedsUpdate versions
              (test_case_df.filter (fun r => !(endsWith0 r.version)))).1.map
                CaseRow.pid).Nodup := by
            refine List.Nodup.sublist ?_ hnd
            exact List.Sublist.trans
              (processNeedsUpdate_pids versions _)
              (List.Sublist.map CaseRow.pid (List.filter_sublist test_case_df))
          have hfind : (processNeedsUpdate versions
              (test_case_df.filter (fun r => !(endsWith0 r.version)))).1.find?
              (fun v => v.pid == row.pid) = some (overwriteRow row latest) :=
            find?_nodup_self _ (overwriteRow row latest) hndu hu
          obtain ⟨hlmem, hlmax⟩ := sortDescBy_head_max versionKey
            (approvedOf versions row) latest rst hsort
          exact ⟨latest, by rw [hget, hfind]; rfl, hlmem, hlmax⟩

/-- Counterexample for C1: the write-back targets the FIRST row whose pid
matches.  With two rows sharing pid "TC-1" (the first already approved at
"2.0", the second stale at "1.3" with approved history entry "3.0"), the
approved "2.0" row gets overwritten — although the claim says rows ending
in ".0" are never modified — while the stale "1.3" row, which the claim
says must be overwritten, is left unchanged. -/
theorem get_latest_counterexample :
    get_latest_approved_versions c1Versions c1DupTable =
      Except.ok ([⟨"TC-1", 5, "3.0", 50⟩, ⟨"TC-1", 1, "1.3", 11⟩],
        [⟨"TC-1", 5, "3.0", 50⟩, ⟨"TC-1", 1, "1.3", 11⟩], []) ∧
    endsWith0 "2.0" = true ∧
    ((⟨"TC-1", 5, "3.0", 50⟩ : CaseRow) ≠ ⟨"TC-1", 1, "2.0", 10⟩) ∧
    endsWith0 "1.3" = false ∧
    approvedOf c1Versions ⟨"TC-1", 1, "1.3", 11⟩ = [⟨5, "3.0", 50⟩] ∧
    ((⟨"TC-1", 1, "1.3", 11⟩ : CaseRow) ≠
      overwriteRow ⟨"TC-1", 1, "1.3", 11⟩ ⟨5, "3.0", 50⟩) := by
  refine ⟨by decide, by decide, by decide, by decide, by decide, by decide⟩

/-- Witness for C1 (amended): on the three-row table with distinct pids, the
approved "2.0" row is untouched, the spec's `1.3`-with-`["2.0","1.0"]` row
resolves to the maximal ".0" entry "2.0" (never "1.0"), and the row with no
".0" history entry is unchanged with its warning logged. -/
theorem get_latest_approved_spec_witness :
    c1Out[0]? = some ⟨"TC-1", 1, "2.0", 10⟩ ∧
    (∃ latest, c1Out[1]? = some (overwriteRow ⟨"TC-2", 2, "1.3", 21⟩ latest) ∧
      latest ∈ approvedOf c1WitnessVersions ⟨"TC-2", 2, "1.3", 21⟩ ∧
      ∀ v ∈ approvedOf c1WitnessVersions ⟨"TC-2", 2, "1.3", 21⟩,
        versionKey v ≤ versionKey latest) ∧
    c1Out[2]? = some ⟨"TC-3", 3, "0.5", 31⟩ ∧ ((3 : Int), "TC-3") ∈ c1Warnings := by
  have h := (get_latest_approved_spec c1WitnessVersions c1Table (by decide) (by decide)).2
    c1Out c1Changed c1Warnings (by decide)
  refine ⟨(h.2 0 ⟨"TC-1", 1, "2.0", 10⟩ (by decide)).1 (by decide), ?_, ?_, ?_⟩
  · exact (h.2 1 ⟨"TC-2", 2, "1.3", 21⟩ (by decide)).2.2 (by decide) (by decide)
  · exact ((h.2 2 ⟨"TC-3", 3, "0.5", 31⟩ (by decide)).2.1 (by decide) (by decide)).1
  · exact ((h.2 2 ⟨"TC-3", 3, "0.5", 31⟩ (by decide)).2.1 (by decide) (by decide)).2

/-- Witness for C2: the spec's `TC-5` scenario — both old TC-5 rows are
gone, the TC-4 row survives, the one freshly fetched TC-5 row is appended;
the surviving changed-pid row is the freshly fetched one; with all fetches
empty, the output is just the filtered old table. -/
theorem update_case_steps_spec_witness :
    update_case_steps c2StepsFor 1 c2Changed c2Old =
      [⟨"TC-4", 4, 40, 1, 41, 1, "keep me", "keep exp", ""⟩,
       ⟨"TC-5", 10, 20, 1, 99, 1, "new step", "new exp", ""⟩] ∧
    (∃ row ∈ c2Changed, ∃ st ∈ c2StepsFor row.id row.test_case_version_id,
      (⟨"TC-5", 10, 20, 1, 99, 1, "new step", "new exp", ""⟩ : StepRow) =
        freshStepRow 1 row st) ∧
    update_case_steps c2EmptyFetch 1 c2Changed c2Old =
      c2Old.filter (fun s => !(decide (s.pid ∈ c2Changed.map CaseRow.pid))) := by
  refine ⟨?_, ?_, ?_⟩
  · rw [(update_case_steps_spec c2StepsFor 1 c2Changed c2Old).1]
    decide
  · exact (update_case_steps_spec c2StepsFor 1 c2Changed c2Old).2.1
      ⟨"TC-5", 10, 20, 1, 99, 1, "new step", "new exp", ""⟩ (by decide) (by decide)
  · exact (update_case_steps_spec c2EmptyFetch 1 c2Changed c2Old).2.2 (by decide)

/-- Witness for C10: the target's pid matches two runs and two steps; the
posted log uses the first run's id 100 and the first step's id 11. -/
theorem execute_uses_first_match_witness :
    ({ test_case_pid := "TC-7", test_run_id := 100, result_code := 601,
       result_name := "Passed", step_id := 11,
       actual_result := "C:/results/tc7.pdf" } : PostedLog) ∈
      execute_test_runs c10Mapping [c10Target] c10Runs c10Steps ∧
    c10Runs.length = 2 ∧ c10Steps.length = 2 := by
  refine ⟨?_, rfl, rfl⟩
  exact execute_uses_first_match c10Mapping [c10Target] c10Runs c10Steps c10Target
    (by decide) 601 (by decide)
    ⟨"TC-7", 7, "Run A", 100⟩ [⟨"TC-7", 7, "Run B", 101⟩] (by decide)
    ⟨"TC-7", 7, 70, 1, 11, 1, "step one", "expected one", ""⟩
    [⟨"TC-7", 7, 70, 1, 12, 2, "step two", "expected two", ""⟩] (by decide)

/-- Witness for C9: a 200-without-id first attempt retries and the final id
42 comes from attempt 2's 200 response. -/
theorem create_test_suite_missing_id_witness :
    (suiteGo 2 suite200NoIdThen42 1 1 =
      ((suiteGo 2 suite200NoIdThen42 2 2).1, 1 :: (suiteGo 2 suite200NoIdThen42 2 2).2)) ∧
    (∃ a, 1 ≤ a ∧ a ≤ 2 ∧
      suite200NoIdThen42 a = SuiteAttempt.resp 200 (some 42) ∧ (42 : Int) ≠ 0) := by
  constructor
  · have h := (create_test_suite_missing_id 2 suite200NoIdThen42).1 1 1
      (by decide) (by decide) (by decide)
    simpa using h
  · refine (create_test_suite_missing_id 2 suite200NoIdThen42).2 42 ?_
    have h := suiteGo_succeeds 2 suite200NoIdThen42 1 2 1 1 rfl (by omega) (by omega)
      (by decide) 42 (by decide)
    rw [create_test_suite, h]

end QTest
